import Mathlib

/-!
Shallow embedding of the sshtun-user account lifecycle and state-reconciliation
engine (package tunneluser and its teardown code), together with proofs about
the spec's claims.

The OS-level stores (the account database /etc/passwd, the group database
/etc/group, the shadow credentials, the per-user authorized-keys files and the
two scheduler deny-list files) are modelled as one structured state value.
External commands (groupadd, gpasswd -d, usermod -aG, useradd, userdel,
groupdel, chpasswd, chown) are modelled as deterministic state transformers
that perform the mutation the command performs on success; operations return
the resulting state together with an optional error message, mirroring the
Go functions' (mutate-then-maybe-fail, no rollback) structure.
-/

namespace SshtunUser

/-- AuthMode mirrors the Go type tunneluser.AuthMode with its two constants
AuthModePassword and AuthModeKey. -/
inductive AuthMode where
  | password
  | key
deriving DecidableEq, Repr

/-- Group name constant GroupPasswordAuth from the source. -/
def GroupPasswordAuth : String := "sshtunnel-password"

/-- Group name constant GroupKeyAuth from the source. -/
def GroupKeyAuth : String := "sshtunnel-key"

/-- Config mirrors tunneluser.Config. -/
structure Config where
  username : String
  authMode : AuthMode
  password : String
  publicKey : String
deriving DecidableEq, Repr

/-- One /etc/group line: group name, numeric gid, supplementary member list. -/
structure Group where
  name : String
  gid : Nat
  members : List String
deriving DecidableEq, Repr

/-- One /etc/passwd line, restricted to the fields the program reads:
username and primary group id. -/
structure PasswdEntry where
  name : String
  gid : Nat
deriving DecidableEq, Repr

/-- A per-user authorized-keys file as written by SetupSSHKey: its content,
its owner (set via chown) and its permission bits (the mode passed to
os.WriteFile). -/
structure KeyFile where
  content : String
  owner : String
  mode : Nat
deriving DecidableEq, Repr

/-- The external mutable state the program coordinates.  A deny file that does
not exist is `none`; nextGid supplies fresh group ids for groupadd. -/
structure SysState where
  passwd : List PasswdEntry
  groups : List Group
  shadow : List (String × String)
  keyFiles : List (String × KeyFile)
  cronDeny : Option String
  atDeny : Option String
  nextGid : Nat
deriving DecidableEq, Repr

/-- user.Lookup: find the passwd entry for a username. -/
def lookupUser (s : SysState) (u : String) : Option PasswdEntry :=
  s.passwd.find? (fun e => e.name = u)

/-- user.LookupGroup: find the group database entry for a group name. -/
def lookupGroup (s : SysState) (g : String) : Option Group :=
  s.groups.find? (fun e => e.name = g)

/-- Exists (tunneluser.Exists): user.Lookup succeeds.  Renamed because Exists
is the existential quantifier in Lean. -/
def userExists (s : SysState) (u : String) : Bool :=
  (lookupUser s u).isSome

/-- getGroupMembers: parse the group database for the supplementary member
list of a group; a missing group yields the empty list (not an error). -/
def getGroupMembers (s : SysState) (g : String) : List String :=
  match lookupGroup s g with
  | some grp => grp.members
  | none => []

/-- getUsersWithPrimaryGroup: usernames of passwd entries whose primary gid is
the group's gid; `none` models the error return when user.LookupGroup fails. -/
def getUsersWithPrimaryGroup (s : SysState) (g : String) : Option (List String) :=
  match lookupGroup s g with
  | none => none
  | some grp => some ((s.passwd.filter (fun e => e.gid = grp.gid)).map (fun e => e.name))

/-- isPrimaryGroup: compares the user's primary gid with the group's gid;
`none` models the error return when either lookup fails. -/
def isPrimaryGroup (s : SysState) (u g : String) : Option Bool :=
  match lookupUser s u with
  | none => none
  | some e =>
    match lookupGroup s g with
    | none => none
    | some grp => some (e.gid = grp.gid)

/-- isInGroup: supplementary membership first, then primary-group membership;
every error from the two checks is swallowed and treated as non-membership,
so the function itself never fails (it returns (bool, nil) in the source). -/
def isInGroup (s : SysState) (u g : String) : Bool :=
  decide (u ∈ getGroupMembers s g) || (isPrimaryGroup s u g).getD false

/-- GetAuthMode: password group first, then key group; `none` models the
single "user is not a tunnel user" error. -/
def GetAuthMode (s : SysState) (u : String) : Option AuthMode :=
  if isInGroup s u GroupPasswordAuth then some AuthMode.password
  else if isInGroup s u GroupKeyAuth then some AuthMode.key
  else none

/-- IsTunnelUser: GetAuthMode resolves successfully. -/
def IsTunnelUser (s : SysState) (u : String) : Bool :=
  (GetAuthMode s u).isSome

/-- UserInfo mirrors tunneluser.UserInfo. -/
structure UserInfo where
  username : String
  authMode : AuthMode
deriving DecidableEq, Repr

/-- The seen-set loop body of List: walk the usernames, skip the ones already
seen, append the rest to the accumulator with the given mode. -/
def addUsersWithMode (mode : AuthMode) :
    List String → List String → List UserInfo → List String × List UserInfo
  | [], seen, acc => (seen, acc)
  | u :: rest, seen, acc =>
    if u ∈ seen then addUsersWithMode mode rest seen acc
    else addUsersWithMode mode rest (u :: seen) (acc ++ [⟨u, mode⟩])

/-- passwordUsers of List: supplementary members of the password group plus
users whose primary group is the password group (lookup errors discarded). -/
def passwordNames (s : SysState) : List String :=
  getGroupMembers s GroupPasswordAuth ++
    (getUsersWithPrimaryGroup s GroupPasswordAuth).getD []

/-- keyUsers of List: same for the key group. -/
def keyNames (s : SysState) : List String :=
  getGroupMembers s GroupKeyAuth ++
    (getUsersWithPrimaryGroup s GroupKeyAuth).getD []

/-- List (tunneluser.List): password-mode users first, then key-mode users,
de-duplicated by the shared seen set.  Renamed because List is the list type
in Lean. -/
def listUsers (s : SysState) : List UserInfo :=
  let p := addUsersWithMode AuthMode.password (passwordNames s) [] []
  (addUsersWithMode AuthMode.key (keyNames s) p.1 p.2).2

/-! External commands, modelled as the mutation they perform on success. -/

/-- groupadd: create a group with a fresh gid and an empty member list. -/
def groupadd (g : String) (s : SysState) : SysState :=
  { s with groups := s.groups ++ [⟨g, s.nextGid, []⟩], nextGid := s.nextGid + 1 }

/-- Loop body of EnsureGroups: create the group when user.LookupGroup fails. -/
def ensureGroup (g : String) (s : SysState) : SysState :=
  if (lookupGroup s g).isSome then s else groupadd g s

/-- EnsureGroups: create each of the two tunnel groups if it does not exist,
password group first. -/
def EnsureGroups (s : SysState) : SysState :=
  ensureGroup GroupKeyAuth (ensureGroup GroupPasswordAuth s)

/-- gpasswd -d u g: drop u from the supplementary member list of g.  The gid
held as a user's primary group is not touched.  Failure (u not a member) is
ignored by every caller, and leaves the same state as this no-op removal. -/
def gpasswdRemove (u g : String) (s : SysState) : SysState :=
  { s with groups := s.groups.map (fun grp =>
      if grp.name = g then { grp with members := grp.members.filter (fun m => m ≠ u) } else grp) }

/-- usermod -aG g u: append u to the supplementary member list of g (no
duplicate entry when already a member). -/
def usermodAddGroup (u g : String) (s : SysState) : SysState :=
  { s with groups := s.groups.map (fun grp =>
      if grp.name = g ∧ u ∉ grp.members then { grp with members := grp.members ++ [u] } else grp) }

/-- useradd --gid: append a passwd entry with the given primary gid. -/
def useradd (u : String) (gid : Nat) (s : SysState) : SysState :=
  { s with passwd := s.passwd ++ [⟨u, gid⟩] }

/-- userdel: remove the passwd entry and the user's supplementary memberships. -/
def userdel (u : String) (s : SysState) : SysState :=
  { s with passwd := s.passwd.filter (fun e => e.name ≠ u),
           groups := s.groups.map (fun grp =>
             { grp with members := grp.members.filter (fun m => m ≠ u) }) }

/-- groupdel: remove the group database entry. -/
def groupdel (g : String) (s : SysState) : SysState :=
  { s with groups := s.groups.filter (fun grp => grp.name ≠ g) }

/-- chpasswd fed "u:p": set the account credential. -/
def chpasswd (u p : String) (s : SysState) : SysState :=
  { s with shadow := (u, p) :: s.shadow.filter (fun e => e.1 ≠ u) }

/-! Deny-list file manipulation.  splitLines is the source's hand-rolled line
splitter; the file contents are plain strings. -/

/-- Loop of splitLines: cur holds the reversed current line. -/
def splitLinesGo : List Char → List Char → List (List Char)
  | [], cur => if cur.isEmpty then [] else [cur.reverse]
  | c :: cs, cur => if c = '\n' then cur.reverse :: splitLinesGo cs [] else splitLinesGo cs (c :: cur)

/-- splitLines from the source: split at newline bytes; a trailing fragment is
kept only when nonempty, so "a\n" gives ["a"] and "a\nb" gives ["a", "b"]. -/
def splitLines (str : String) : List String :=
  (splitLinesGo str.toList []).map String.mk

/-- Per-file body of blockScheduledTasks: a missing deny file is first created
empty; the username is appended (newline-terminated) unless some line already
equals it. -/
def addToDenyContent (u : String) (c : Option String) : String :=
  let c0 := c.getD ""
  if u ∈ splitLines c0 then c0 else c0 ++ u ++ "\n"

/-- blockScheduledTasks: add the user to /etc/cron.deny and /etc/at.deny. -/
def blockScheduledTasks (u : String) (s : SysState) : SysState :=
  { s with cronDeny := some (addToDenyContent u s.cronDeny),
           atDeny := some (addToDenyContent u s.atDeny) }

/-- Per-file body of removeFromDenyFiles: drop the lines equal to the
username, rejoin with newlines, and newline-terminate a nonempty result.
The source's strings.HasSuffix(content, "\n") is the last-character test. -/
def removeFromDenyContent (u : String) (c : String) : String :=
  let newLines := (splitLines c).filter (fun l => l ≠ u)
  let newContent := String.intercalate "\n" newLines
  if newLines.length > 0 ∧ ¬(newContent.toList.getLast? = some '\n') then newContent ++ "\n"
  else newContent

/-- removeFromDenyFiles: prune the user from both deny files (a missing file
is skipped). -/
def removeFromDenyFiles (u : String) (s : SysState) : SysState :=
  { s with cronDeny := s.cronDeny.map (removeFromDenyContent u),
           atDeny := s.atDeny.map (removeFromDenyContent u) }

/-- Per-file body of CleanupDenyFiles: keep blank lines and lines naming a
still-existing user; rewrite the file only when something was removed, and
the rewrite emits only the kept nonblank lines, each newline-terminated. -/
def cleanupDenyContent (s : SysState) (c : String) : String :=
  let lines := splitLines c
  let newLines := lines.filter (fun l => l = "" ∨ userExists s l = true)
  if newLines.length < lines.length then
    String.join ((newLines.filter (fun l => l ≠ "")).map (fun l => l ++ "\n"))
  else c

/-- CleanupDenyFiles: prune entries of no-longer-existing users from both
deny files (a missing file is skipped). -/
def CleanupDenyFiles (s : SysState) : SysState :=
  { s with cronDeny := s.cronDeny.map (cleanupDenyContent s),
           atDeny := s.atDeny.map (cleanupDenyContent s) }

/-! Credential setter. -/

/-- ValidatePublicKey's regex on the character list: the anchored alternation
(ssh-rsa|ssh-ed25519|ecdsa-sha2-nistp digits|ssh-dss) followed by a space. -/
def keyTypeOk (cs : List Char) : Bool :=
  "ssh-rsa ".toList.isPrefixOf cs ||
  "ssh-ed25519 ".toList.isPrefixOf cs ||
  ("ecdsa-sha2-nistp".toList.isPrefixOf cs &&
    (let rest := cs.drop 16
     let ds := rest.takeWhile Char.isDigit
     !ds.isEmpty && ((rest.drop ds.length).head? = some ' '))) ||
  "ssh-dss ".toList.isPrefixOf cs

/-- ValidatePublicKey: syntactic first-token check only. -/
def ValidatePublicKey (k : String) : Bool :=
  keyTypeOk k.toList

/-- Replace or insert the key file stored for a username (os.WriteFile
truncates, so a previous file for the same username is overwritten). -/
def setKeyFile (u : String) (kf : KeyFile) (l : List (String × KeyFile)) :
    List (String × KeyFile) :=
  (l.filter (fun e => e.1 ≠ u)) ++ [(u, kf)]

/-- SetupSSHKey: validate, then write "restrict,port-forwarding key\n" at the
path keyed by the username with file mode 0644, and chown it to root.  On a
validation failure nothing is written. -/
def SetupSSHKey (u k : String) (s : SysState) : SysState × Option String :=
  if ValidatePublicKey k then
    ({ s with keyFiles :=
        setKeyFile u ⟨"restrict,port-forwarding " ++ k ++ "\n", "root", 0o644⟩ s.keyFiles }, none)
  else (s, some "invalid public key format")

/-- SetPassword: chpasswd with "u:p" on stdin. -/
def SetPassword (u p : String) (s : SysState) : SysState × Option String :=
  (chpasswd u p s, none)

/-! Password generation. -/

/-- Base64 standard alphabet. -/
def base64Table : List Char :=
  "ABCDEFGHIJKLMNOPQRSTUVWXYZabcdefghijklmnopqrstuvwxyz0123456789+/".toList

/-- Character for a 6-bit index. -/
def b64char (n : Nat) : Char :=
  base64Table.getD n 'A'

/-- base64.StdEncoding.EncodeToString over a byte list: 3 bytes become 4
characters; a 1- or 2-byte tail is padded with '='. -/
def base64EncodeStd : List Nat → List Char
  | [] => []
  | [b1] => [b64char (b1 / 4), b64char (b1 % 4 * 16), '=', '=']
  | [b1, b2] => [b64char (b1 / 4), b64char (b1 % 4 * 16 + b2 / 16), b64char (b2 % 16 * 4), '=']
  | b1 :: b2 :: b3 :: rest =>
    b64char (b1 / 4) :: b64char (b1 % 4 * 16 + b2 / 16) ::
      b64char (b2 % 16 * 4 + b3 / 64) :: b64char (b3 % 64) :: base64EncodeStd rest

/-- strings.NewReplacer("/", "", "+", "", "=", ""): delete every '/', '+', '='. -/
def stripB64 (cs : List Char) : List Char :=
  cs.filter (fun c => ¬(c = '/' ∨ c = '+' ∨ c = '='))

/-- GeneratePassword on the drawn random bytes: encode, strip, and truncate to
the first 16 characters when longer. -/
def generatePasswordChars (bytes : List Nat) : List Char :=
  let password := stripB64 (base64EncodeStd bytes)
  if password.length > 16 then password.take 16 else password

/-- GeneratePassword as a string, as a function of the 18 random bytes. -/
def GeneratePassword (bytes : List Nat) : String :=
  String.mk (generatePasswordChars bytes)

/-! Lifecycle manager. -/

/-- userGroup selection in Create: password group unless the mode is key. -/
def targetGroupName (m : AuthMode) : String :=
  match m with
  | AuthMode.key => GroupKeyAuth
  | AuthMode.password => GroupPasswordAuth

/-- Create: reject an empty username before any mutation; ensure the groups;
on an existing user strip supplementary membership in both tunnel groups and
append the target group, otherwise create the account with the target group
as primary group; then apply the credential and, on success, add the user to
both deny lists.  A failing step leaves the earlier steps applied. -/
def Create (cfg : Config) (s : SysState) : SysState × Option String :=
  if cfg.username = "" then (s, some "username is required")
  else
    let s1 := EnsureGroups s
    let userGroup := targetGroupName cfg.authMode
    let s2e : SysState × Option String :=
      if userExists s1 cfg.username then
        (usermodAddGroup cfg.username userGroup
          (gpasswdRemove cfg.username GroupKeyAuth
            (gpasswdRemove cfg.username GroupPasswordAuth s1)), none)
      else
        match lookupGroup s1 userGroup with
        | some grp => (useradd cfg.username grp.gid s1, none)
        | none => (s1, some "failed to create user")
    match s2e.2 with
    | some e => (s2e.1, some e)
    | none =>
      let cred :=
        if cfg.authMode = AuthMode.key then SetupSSHKey cfg.username cfg.publicKey s2e.1
        else SetPassword cfg.username cfg.password s2e.1
      match cred.2 with
      | some e => (cred.1, some e)
      | none => (blockScheduledTasks cfg.username cred.1, none)

/-- Removal of the per-user key file in Delete: stat-then-remove, no error
when absent. -/
def removeKeyFileIfPresent (u : String) (s : SysState) : SysState :=
  { s with keyFiles := s.keyFiles.filter (fun e => e.1 ≠ u) }

/-- The mutation Delete performs on a tunnel user: strip supplementary tunnel
memberships, delete the account, remove the key file if present, and prune
the deny lists. -/
def deleteState (u : String) (s : SysState) : SysState :=
  removeFromDenyFiles u (removeKeyFileIfPresent u (userdel u
    (gpasswdRemove u GroupKeyAuth (gpasswdRemove u GroupPasswordAuth s))))

/-- Delete: refuse a non-tunnel user; otherwise apply deleteState. -/
def Delete (u : String) (s : SysState) : SysState × Option String :=
  if ¬(IsTunnelUser s u = true) then (s, some "user is not a tunnel user")
  else (deleteState u s, none)

/-- Whether a gid is the gid of one of the two tunnel groups of s. -/
def isTunnelGidIn (s : SysState) (gid : Nat) : Bool :=
  (match lookupGroup s GroupPasswordAuth with
   | some grp => decide (grp.gid = gid)
   | none => false) ||
  (match lookupGroup s GroupKeyAuth with
   | some grp => decide (grp.gid = gid)
   | none => false)

/-- Re-point the primary group of the named user at the target gid when it
currently is a tunnel gid. -/
def switchPrimaryGid (u : String) (tgid : Nat) (tunnelGid : Nat → Bool) (s : SysState) :
    SysState :=
  { s with passwd := s.passwd.map (fun e =>
      if e.name = u ∧ tunnelGid e.gid = true then { e with gid := tgid } else e) }

/-- Modelled from the spec: the repository code that implements SwitchAuthMode
is not among the provided sources (only its callers are).  Per the spec it
fails with a NotFound error when the user is not an existing tunnel user, and
otherwise removes the user's membership in both tunnel groups and adds the
user to the target group, touching no credentials.  Removal covers both
membership kinds: the supplementary member lists of both groups, and a tunnel
group held as the user's primary group, which is re-pointed at the target
group.  Adding the user to a target group that is absent from the group
database fails. -/
def SwitchAuthMode (u : String) (m : AuthMode) (s : SysState) : SysState × Option String :=
  if ¬(IsTunnelUser s u = true) then (s, some "user is not a tunnel user")
  else
    match lookupGroup s (targetGroupName m) with
    | none => (s, some "tunnel group missing")
    | some tg =>
      (usermodAddGroup u (targetGroupName m)
        (switchPrimaryGid u tg.gid (isTunnelGidIn s)
          (gpasswdRemove u GroupKeyAuth (gpasswdRemove u GroupPasswordAuth s))), none)

/-! Teardown coordinator. -/

/-- Loop of DeleteAllUsers: delete each username, collecting the successes
and the per-user failures. -/
def deleteUsersFold : List String → SysState → List String → List String →
    SysState × List String × List String
  | [], s, deleted, errs => (s, deleted, errs)
  | u :: rest, s, deleted, errs =>
    let r := Delete u s
    match r.2 with
    | some e => deleteUsersFold rest r.1 deleted (errs ++ [u ++ ": " ++ e])
    | none => deleteUsersFold rest r.1 (deleted ++ [u]) errs

/-- DeleteAllUsers: list the tunnel users and delete each; zero users is an
immediate no-op; partial failure surfaces both the deleted list and an
aggregate error. -/
def DeleteAllUsers (s : SysState) : SysState × List String × Option String :=
  let users := listUsers s
  if users.isEmpty then (s, [], none)
  else
    let r := deleteUsersFold (users.map (fun e => e.username)) s [] []
    if r.2.2.isEmpty then (r.1, r.2.1, none)
    else (r.1, r.2.1, some "some users could not be deleted")

/-- Per-group body of GroupsHaveUsers: nonempty supplementary member list, or
a nonempty primary-group user list (a failed group lookup counts as empty). -/
def groupHasAny (s : SysState) (g : String) : Bool :=
  !(getGroupMembers s g).isEmpty ||
  (match getUsersWithPrimaryGroup s g with
   | some l => !l.isEmpty
   | none => false)

/-- GroupsHaveUsers: either tunnel group has a member of either kind. -/
def GroupsHaveUsers (s : SysState) : Bool :=
  groupHasAny s GroupPasswordAuth || groupHasAny s GroupKeyAuth

/-- DeleteGroups: refuse while GroupsHaveUsers; otherwise delete each tunnel
group that exists (getent check), skipping an absent group. -/
def DeleteGroups (s : SysState) : SysState × Option String :=
  if GroupsHaveUsers s then (s, some "cannot delete groups: tunnel users still exist")
  else
    let s1 := if (lookupGroup s GroupPasswordAuth).isSome then groupdel GroupPasswordAuth s else s
    let s2 := if (lookupGroup s1 GroupKeyAuth).isSome then groupdel GroupKeyAuth s1 else s1
    (s2, none)

/-! Lifecycle operation sequences, for the group-membership invariant. -/

/-- One lifecycle operation: Create (which is Create-as-update on an existing
username), SwitchAuthMode, or Delete. -/
inductive Op where
  | create (cfg : Config)
  | switchMode (u : String) (m : AuthMode)
  | delete (u : String)
deriving DecidableEq, Repr

/-- Apply one operation; the state component carries the partial mutation
even when the operation reports an error. -/
def applyOp (op : Op) (s : SysState) : SysState × Option String :=
  match op with
  | Op.create cfg => Create cfg s
  | Op.switchMode u m => SwitchAuthMode u m s
  | Op.delete u => Delete u s

/-- Run a sequence of operations, threading the state. -/
def runOps (ops : List Op) (s : SysState) : SysState :=
  ops.foldl (fun t op => (applyOp op t).1) s

/-- Membership of a username in a named tunnel group, counting both
supplementary and primary membership — the notion isInGroup computes. -/
def memberOf (s : SysState) (u g : String) : Prop :=
  u ∈ getGroupMembers s g ∨
    ∃ e grp, lookupUser s u = some e ∧ lookupGroup s g = some grp ∧ e.gid = grp.gid

/-- The spec's invariant: no user is in both tunnel groups. -/
def Invariant (s : SysState) : Prop :=
  ∀ u : String, ¬(isInGroup s u GroupPasswordAuth = true ∧ isInGroup s u GroupKeyAuth = true)

/-- Well-formedness of the modelled OS databases: group names and gids are
unique, gids (of groups and of passwd entries) are below the fresh-gid
counter, usernames are unique, and every supplementary member of a group is a
real account. -/
def WF (s : SysState) : Prop :=
  (s.groups.map Group.name).Nodup ∧
  (s.groups.map Group.gid).Nodup ∧
  (∀ g ∈ s.groups, g.gid < s.nextGid) ∧
  (s.passwd.map PasswdEntry.name).Nodup ∧
  (∀ e ∈ s.passwd, e.gid < s.nextGid) ∧
  (∀ g ∈ s.groups, ∀ m ∈ g.members, userExists s m = true)

/-- isPrimaryGroup's boolean reading with errors as non-membership. -/
def primaryInGroup (s : SysState) (u g : String) : Bool :=
  (isPrimaryGroup s u g).getD false

/-- The tunnel group a mode does not select. -/
def otherGroupName (m : AuthMode) : String :=
  match m with
  | AuthMode.key => GroupPasswordAuth
  | AuthMode.password => GroupKeyAuth

/-- Steps that preserve the at-most-one-group invariant: every SwitchAuthMode
and Delete, and every Create except the update of an existing user whose
primary group is the tunnel group the requested mode does not select (that
update strips only supplementary memberships and leaves the primary group). -/
def SafeStep (s : SysState) (op : Op) : Prop :=
  match op with
  | Op.create cfg =>
      cfg.username = "" ∨ userExists s cfg.username = false ∨
        primaryInGroup (EnsureGroups s) cfg.username (otherGroupName cfg.authMode) = false
  | Op.switchMode _ _ => True
  | Op.delete _ => True

/-- A run in which every step is safe in the state it executes in. -/
def SafeRun : SysState → List Op → Prop
  | _, [] => True
  | s, op :: ops => SafeStep s op ∧ SafeRun (applyOp op s).1 ops

/-- An empty initial state; 1000 is the first gid groupadd hands out. -/
def initState : SysState :=
  ⟨[], [], [], [], none, none, 1000⟩

/-- Alphanumeric in the ASCII sense. -/
def isAlnumChar (c : Char) : Bool :=
  c.isAlpha || c.isDigit

/-- The key file stored for a username. -/
def lookupKeyFile (s : SysState) (u : String) : Option KeyFile :=
  (s.keyFiles.find? (fun e => e.1 = u)).map Prod.snd

/-- The credential stored for a username by chpasswd. -/
def lookupShadow (s : SysState) (u : String) : Option String :=
  (s.shadow.find? (fun e => e.1 = u)).map Prod.snd

/-- Every username with tunnel-group membership of either kind, as collected
by the state reader: supplementary members of both groups and users whose
primary group is either group. -/
def tunnelNames (s : SysState) : List String :=
  passwordNames s ++ keyNames s

/-! Generic list helpers. -/

theorem mem_filter_ne {l : List String} {u v : String} :
    u ∈ l.filter (fun m => m ≠ v) ↔ u ∈ l ∧ u ≠ v := by
  simp [List.mem_filter]

theorem filter_singleton_of_nodup {l : List UserInfo} {u : String} {m : AuthMode}
    (hn : (l.map UserInfo.username).Nodup) (hm : (⟨u, m⟩ : UserInfo) ∈ l) :
    l.filter (fun e => e.username = u) = [⟨u, m⟩] := by
  induction l with
  | nil => cases hm
  | cons e rest ih =>
    simp only [List.map_cons, List.nodup_cons] at hn
    rcases List.mem_cons.mp hm with h | h
    · subst h
      have hrest : rest.filter (fun e => decide (e.username = u)) = [] := by
        refine List.filter_eq_nil_iff.mpr ?_
        intro x hx
        simp only [decide_eq_true_eq]
        intro hxu
        exact hn.1 (hxu ▸ (List.mem_map.mpr ⟨x, hx, rfl⟩))
      simp [List.filter_cons, hrest]
    · have hne : ¬(e.username = u) := by
        intro hx
        exact hn.1 (hx ▸ (List.mem_map.mpr ⟨⟨u, m⟩, h, rfl⟩) : e.username ∈ rest.map UserInfo.username)
      rw [List.filter_cons, if_neg (by simpa using hne)]
      exact ih hn.2 h

/-! Lookup and membership facts under the state mutators. -/

theorem lookupUser_congr {s t : SysState} (h : t.passwd = s.passwd) (u : String) :
    lookupUser t u = lookupUser s u := by
  unfold lookupUser; rw [h]

theorem lookupGroup_congr {s t : SysState} (h : t.groups = s.groups) (g : String) :
    lookupGroup t g = lookupGroup s g := by
  unfold lookupGroup; rw [h]

theorem isInGroup_congr {s t : SysState} (hp : t.passwd = s.passwd)
    (hg : t.groups = s.groups) (u g : String) : isInGroup t u g = isInGroup s u g := by
  unfold isInGroup getGroupMembers isPrimaryGroup
  rw [lookupUser_congr hp, lookupGroup_congr hg]

theorem userExists_congr {s t : SysState} (h : t.passwd = s.passwd) (u : String) :
    userExists t u = userExists s u := by
  unfold userExists; rw [lookupUser_congr h]

/-- groups are untouched by the file- and credential-level mutators. -/
theorem groups_fileOps (u p : String) (s : SysState) :
    (blockScheduledTasks u s).groups = s.groups ∧
    (removeFromDenyFiles u s).groups = s.groups ∧
    (removeKeyFileIfPresent u s).groups = s.groups ∧
    (chpasswd u p s).groups = s.groups ∧
    (CleanupDenyFiles s).groups = s.groups := by
  refine ⟨rfl, rfl, rfl, rfl, rfl⟩

theorem passwd_fileOps (u p : String) (s : SysState) :
    (blockScheduledTasks u s).passwd = s.passwd ∧
    (removeFromDenyFiles u s).passwd = s.passwd ∧
    (removeKeyFileIfPresent u s).passwd = s.passwd ∧
    (chpasswd u p s).passwd = s.passwd ∧
    (CleanupDenyFiles s).passwd = s.passwd := by
  refine ⟨rfl, rfl, rfl, rfl, rfl⟩

theorem lookupGroup_groupadd (g g' : String) (s : SysState) :
    lookupGroup (groupadd g' s) g =
      ((lookupGroup s g).or (if g' = g then some ⟨g', s.nextGid, []⟩ else none)) := by
  unfold lookupGroup groupadd
  rw [List.find?_append]
  congr 1
  simp only [List.find?]
  split <;> simp_all [decide_eq_true_eq]

theorem groupadd_passwd (g : String) (s : SysState) : (groupadd g s).passwd = s.passwd := rfl

theorem ensureGroup_passwd (g : String) (s : SysState) : (ensureGroup g s).passwd = s.passwd := by
  unfold ensureGroup
  split <;> rfl

theorem EnsureGroups_passwd (s : SysState) : (EnsureGroups s).passwd = s.passwd := by
  unfold EnsureGroups
  rw [ensureGroup_passwd, ensureGroup_passwd]

theorem lookupGroup_ensureGroup_some {g : String} {s : SysState} {grp : Group} (g' : String)
    (h : lookupGroup s g = some grp) : lookupGroup (ensureGroup g' s) g = some grp := by
  unfold ensureGroup
  split
  · exact h
  · rw [lookupGroup_groupadd, h]; rfl

theorem lookupGroup_ensureGroup_self (g : String) (s : SysState) :
    (lookupGroup (ensureGroup g s) g).isSome = true := by
  unfold ensureGroup
  split
  · assumption
  · rename_i h
    rw [lookupGroup_groupadd, Option.not_isSome_iff_eq_none.mp h]
    simp

theorem lookupGroup_ensureGroup_other {g : String} {s : SysState} (g' : String) (hne : g' ≠ g)
    (h : lookupGroup s g = none) : lookupGroup (ensureGroup g' s) g = none := by
  unfold ensureGroup
  split
  · exact h
  · rw [lookupGroup_groupadd, h]
    simp [hne]

/-- Both tunnel groups resolve after EnsureGroups. -/
theorem lookupGroup_EnsureGroups_isSome (s : SysState) :
    (lookupGroup (EnsureGroups s) GroupPasswordAuth).isSome = true ∧
    (lookupGroup (EnsureGroups s) GroupKeyAuth).isSome = true := by
  constructor
  · unfold EnsureGroups
    rcases h : lookupGroup (ensureGroup GroupPasswordAuth s) GroupPasswordAuth with _ | grp
    · have := lookupGroup_ensureGroup_self GroupPasswordAuth s
      rw [h] at this
      cases this
    · rw [lookupGroup_ensureGroup_some GroupKeyAuth h]
      rfl
  · exact lookupGroup_ensureGroup_self GroupKeyAuth _

/-- A group that already existed resolves to its old entry after EnsureGroups. -/
theorem lookupGroup_EnsureGroups_some {g : String} {s : SysState} {grp : Group}
    (h : lookupGroup s g = some grp) : lookupGroup (EnsureGroups s) g = some grp :=
  lookupGroup_ensureGroup_some GroupKeyAuth (lookupGroup_ensureGroup_some GroupPasswordAuth h)

/-- A missing group other than the two tunnel groups stays missing. -/
theorem lookupGroup_EnsureGroups_none {g : String} {s : SysState}
    (h1 : GroupPasswordAuth ≠ g) (h2 : GroupKeyAuth ≠ g)
    (h : lookupGroup s g = none) : lookupGroup (EnsureGroups s) g = none :=
  lookupGroup_ensureGroup_other GroupKeyAuth h2 (lookupGroup_ensureGroup_other GroupPasswordAuth h1 h)

theorem lookupGroup_name {s : SysState} {g : String} {grp : Group}
    (h : lookupGroup s g = some grp) : grp.name = g := by
  have := List.find?_some h
  simpa using this

theorem lookupUser_name {s : SysState} {u : String} {e : PasswdEntry}
    (h : lookupUser s u = some e) : e.name = u := by
  have := List.find?_some h
  simpa using this

theorem lookupUser_mem {s : SysState} {u : String} {e : PasswdEntry}
    (h : lookupUser s u = some e) : e ∈ s.passwd :=
  List.mem_of_find?_eq_some h

theorem lookupGroup_mem {s : SysState} {g : String} {grp : Group}
    (h : lookupGroup s g = some grp) : grp ∈ s.groups :=
  List.mem_of_find?_eq_some h

theorem lookupUser_update_groups (s : SysState) (gs : List Group) (u : String) :
    lookupUser { s with groups := gs } u = lookupUser s u := rfl

theorem lookupGroup_update_passwd (s : SysState) (ps : List PasswdEntry) (g : String) :
    lookupGroup { s with passwd := ps } g = lookupGroup s g := rfl

/-- find? by one key over a list purged of another key. -/
theorem find?_filter_key {α : Type} (l : List α) (key : α → String) (u v : String) :
    (l.filter (fun e => key e ≠ v)).find? (fun e => key e = u) =
      if u = v then none else l.find? (fun e => key e = u) := by
  induction l with
  | nil => split <;> rfl
  | cons e t ih =>
    by_cases hev : key e = v
    · rw [List.filter_cons, if_neg (by simp [hev]), ih]
      by_cases huv : u = v
      · simp [huv]
      · have heu : ¬decide (key e = u) = true := by
          simp only [decide_eq_true_eq]
          intro h
          exact huv (h ▸ hev)
        rw [if_neg huv, if_neg huv]
        exact (@List.find?_cons_of_neg α (fun e => decide (key e = u)) e t heu).symm
    · rw [List.filter_cons, if_pos (by simpa using hev)]
      by_cases heu : key e = u
      · have huv : ¬(u = v) := fun h => hev (by rw [heu, h])
        rw [if_neg huv, List.find?_cons_of_pos _ (by simpa using heu),
          List.find?_cons_of_pos _ (by simpa using heu)]
      · rw [List.find?_cons_of_neg _ (by simpa using heu), ih]
        by_cases huv : u = v
        · simp [huv]
        · rw [if_neg huv, if_neg huv, List.find?_cons_of_neg _ (by simpa using heu)]

/-- find? of a group by name through a name-preserving per-group rewrite. -/
theorem find?_map_name {f : Group → Group} (hname : ∀ grp, (f grp).name = grp.name)
    (l : List Group) (g : String) :
    (l.map f).find? (fun e => e.name = g) = (l.find? (fun e => e.name = g)).map f := by
  have hfun : ((fun e : Group => decide (e.name = g)) ∘ f) =
      (fun e : Group => decide (e.name = g)) := by
    funext grp
    simp [Function.comp, hname]
  rw [List.find?_map, hfun]

/-- lookupGroup through a name-preserving per-group rewrite. -/
theorem lookupGroup_mapGroups {s : SysState} {f : Group → Group}
    (hname : ∀ grp, (f grp).name = grp.name) (g : String) :
    lookupGroup { s with groups := s.groups.map f } g = (lookupGroup s g).map f := by
  show (s.groups.map f).find? (fun e => decide (e.name = g)) =
    (s.groups.find? (fun e => decide (e.name = g))).map f
  exact find?_map_name hname s.groups g

theorem isPrimaryGroup_mapGroups {s : SysState} {f : Group → Group}
    (hname : ∀ grp, (f grp).name = grp.name) (hgid : ∀ grp, (f grp).gid = grp.gid)
    (u g : String) :
    isPrimaryGroup { s with groups := s.groups.map f } u g = isPrimaryGroup s u g := by
  unfold isPrimaryGroup
  rw [lookupUser_update_groups, lookupGroup_mapGroups hname]
  cases lookupUser s u with
  | none => rfl
  | some e =>
    cases lookupGroup s g with
    | none => rfl
    | some grp => simp [hgid]

theorem getGroupMembers_eq_nil {s : SysState} {g : String}
    (h : lookupGroup s g = none) : getGroupMembers s g = [] := by
  simp [getGroupMembers, h]

theorem getGroupMembers_eq_members {s : SysState} {g : String} {grp : Group}
    (h : lookupGroup s g = some grp) : getGroupMembers s g = grp.members := by
  simp [getGroupMembers, h]

theorem isInGroup_eq_true_iff (s : SysState) (u g : String) :
    isInGroup s u g = true ↔
      u ∈ getGroupMembers s g ∨ (isPrimaryGroup s u g).getD false = true := by
  simp [isInGroup, Bool.or_eq_true]

/-! gpasswd -d characterization. -/

theorem gpasswdRemove_eq_map (u g : String) (s : SysState) :
    gpasswdRemove u g s = { s with groups := s.groups.map (fun grp =>
      if grp.name = g then { grp with members := grp.members.filter (fun m => m ≠ u) } else grp) } :=
  rfl

theorem gpasswdRemove_name (u g : String) (grp : Group) :
    (if grp.name = g then { grp with members := grp.members.filter (fun m => m ≠ u) } else grp).name
      = grp.name := by
  split <;> rfl

theorem gpasswdRemove_gid (u g : String) (grp : Group) :
    (if grp.name = g then { grp with members := grp.members.filter (fun m => m ≠ u) } else grp).gid
      = grp.gid := by
  split <;> rfl

theorem lookupGroup_gpasswdRemove (v g g' : String) (s : SysState) :
    lookupGroup (gpasswdRemove v g s) g' = (lookupGroup s g').map (fun grp =>
      if grp.name = g then { grp with members := grp.members.filter (fun m => m ≠ v) }
      else grp) := by
  rw [gpasswdRemove_eq_map]
  exact lookupGroup_mapGroups (gpasswdRemove_name v g) g'

theorem getGroupMembers_gpasswdRemove (v g g' : String) (s : SysState) :
    getGroupMembers (gpasswdRemove v g s) g' =
      if g' = g then (getGroupMembers s g').filter (fun m => m ≠ v)
      else getGroupMembers s g' := by
  cases h : lookupGroup s g' with
  | none =>
    have h2 : lookupGroup (gpasswdRemove v g s) g' = none := by
      rw [lookupGroup_gpasswdRemove, h]; rfl
    rw [getGroupMembers_eq_nil h2, getGroupMembers_eq_nil h]
    split <;> rfl
  | some grp =>
    have hn := lookupGroup_name h
    have h2 : lookupGroup (gpasswdRemove v g s) g' =
        some (if grp.name = g then { grp with members := grp.members.filter (fun m => m ≠ v) }
          else grp) := by
      rw [lookupGroup_gpasswdRemove, h]; rfl
    by_cases hgg : g' = g
    · rw [if_pos hgg]
      rw [show (if grp.name = g then { grp with members := grp.members.filter (fun m => m ≠ v) }
          else grp) = { grp with members := grp.members.filter (fun m => m ≠ v) } from
        if_pos (hn.trans hgg)] at h2
      rw [getGroupMembers_eq_members h2, getGroupMembers_eq_members h]
    · rw [if_neg hgg]
      rw [show (if grp.name = g then { grp with members := grp.members.filter (fun m => m ≠ v) }
          else grp) = grp from if_neg (fun hc => hgg (hn ▸ hc))] at h2
      rw [getGroupMembers_eq_members h2, getGroupMembers_eq_members h]

theorem isPrimaryGroup_gpasswdRemove (v g u g' : String) (s : SysState) :
    isPrimaryGroup (gpasswdRemove v g s) u g' = isPrimaryGroup s u g' := by
  rw [gpasswdRemove_eq_map]
  exact isPrimaryGroup_mapGroups (gpasswdRemove_name v g) (gpasswdRemove_gid v g) u g'

theorem isInGroup_gpasswdRemove (v g u g' : String) (s : SysState) :
    isInGroup (gpasswdRemove v g s) u g' =
      if g' = g ∧ u = v then primaryInGroup s u g' else isInGroup s u g' := by
  unfold isInGroup
  rw [getGroupMembers_gpasswdRemove, isPrimaryGroup_gpasswdRemove]
  by_cases hgg : g' = g
  · by_cases huv : u = v
    · simp [hgg, huv, primaryInGroup, List.mem_filter]
    · simp [hgg, huv, List.mem_filter]
  · simp [hgg]

/-! usermod -aG characterization. -/

theorem usermodAddGroup_name (u g : String) (grp : Group) :
    (if grp.name = g ∧ u ∉ grp.members then { grp with members := grp.members ++ [u] } else grp).name
      = grp.name := by
  split <;> rfl

theorem usermodAddGroup_gid (u g : String) (grp : Group) :
    (if grp.name = g ∧ u ∉ grp.members then { grp with members := grp.members ++ [u] } else grp).gid
      = grp.gid := by
  split <;> rfl

theorem usermodAddGroup_eq_map (u g : String) (s : SysState) :
    usermodAddGroup u g s = { s with groups := s.groups.map (fun grp =>
      if grp.name = g ∧ u ∉ grp.members then { grp with members := grp.members ++ [u] } else grp) } :=
  rfl

theorem lookupGroup_usermodAddGroup (v g g' : String) (s : SysState) :
    lookupGroup (usermodAddGroup v g s) g' = (lookupGroup s g').map (fun grp =>
      if grp.name = g ∧ v ∉ grp.members then { grp with members := grp.members ++ [v] }
      else grp) := by
  rw [usermodAddGroup_eq_map]
  exact lookupGroup_mapGroups (usermodAddGroup_name v g) g'

theorem mem_getGroupMembers_usermodAddGroup (v g w g' : String) (s : SysState) :
    w ∈ getGroupMembers (usermodAddGroup v g s) g' ↔
      w ∈ getGroupMembers s g' ∨ (g' = g ∧ w = v ∧ (lookupGroup s g).isSome = true) := by
  cases h : lookupGroup s g' with
  | none =>
    have h2 : lookupGroup (usermodAddGroup v g s) g' = none := by
      rw [lookupGroup_usermodAddGroup, h]; rfl
    rw [getGroupMembers_eq_nil h2, getGroupMembers_eq_nil h]
    constructor
    · intro hw; cases hw
    · rintro (hw | ⟨rfl, _, hsome⟩)
      · cases hw
      · rw [h] at hsome; cases hsome
  | some grp =>
    have hn := lookupGroup_name h
    have h2 : lookupGroup (usermodAddGroup v g s) g' =
        some (if grp.name = g ∧ v ∉ grp.members then { grp with members := grp.members ++ [v] }
          else grp) := by
      rw [lookupGroup_usermodAddGroup, h]; rfl
    by_cases hgg : g' = g
    · subst hgg
      have hsome : (lookupGroup s g').isSome = true := by rw [h]; rfl
      by_cases hv : v ∈ grp.members
      · rw [show (if grp.name = g' ∧ v ∉ grp.members then { grp with members := grp.members ++ [v] }
            else grp) = grp from if_neg (by simp [hv])] at h2
        rw [getGroupMembers_eq_members h2, getGroupMembers_eq_members h]
        constructor
        · exact Or.inl
        · rintro (hw | ⟨_, rfl, _⟩)
          · exact hw
          · exact hv
      · rw [show (if grp.name = g' ∧ v ∉ grp.members then { grp with members := grp.members ++ [v] }
            else grp) = { grp with members := grp.members ++ [v] } from if_pos ⟨hn, hv⟩] at h2
        rw [getGroupMembers_eq_members h2, getGroupMembers_eq_members h]
        show w ∈ grp.members ++ [v] ↔ _
        rw [List.mem_append, List.mem_singleton]
        constructor
        · rintro (hw | rfl)
          · exact Or.inl hw
          · exact Or.inr ⟨rfl, rfl, hsome⟩
        · rintro (hw | ⟨_, rfl, _⟩)
          · exact Or.inl hw
          · exact Or.inr rfl
    · rw [show (if grp.name = g ∧ v ∉ grp.members then { grp with members := grp.members ++ [v] }
          else grp) = grp from if_neg (fun hc => hgg (hn ▸ hc.1))] at h2
      rw [getGroupMembers_eq_members h2, getGroupMembers_eq_members h]
      constructor
      · exact Or.inl
      · rintro (hw | ⟨hc, _, _⟩)
        · exact hw
        · exact absurd hc hgg

theorem isPrimaryGroup_usermodAddGroup (v g u g' : String) (s : SysState) :
    isPrimaryGroup (usermodAddGroup v g s) u g' = isPrimaryGroup s u g' := by
  rw [usermodAddGroup_eq_map]
  exact isPrimaryGroup_mapGroups (usermodAddGroup_name v g) (usermodAddGroup_gid v g) u g'

theorem isInGroup_usermodAddGroup (v g u g' : String) (s : SysState) :
    isInGroup (usermodAddGroup v g s) u g' =
      if g' = g ∧ u = v ∧ (lookupGroup s g).isSome = true then true else isInGroup s u g' := by
  unfold isInGroup
  rw [isPrimaryGroup_usermodAddGroup]
  by_cases hcond : g' = g ∧ u = v ∧ (lookupGroup s g).isSome = true
  · rw [if_pos hcond]
    have : u ∈ getGroupMembers (usermodAddGroup v g s) g' :=
      (mem_getGroupMembers_usermodAddGroup v g u g' s).mpr (Or.inr hcond)
    simp [List.elem_iff, this]
  · rw [if_neg hcond]
    congr 1
    rw [Bool.eq_iff_iff]
    simp only [decide_eq_true_eq]
    rw [mem_getGroupMembers_usermodAddGroup]
    constructor
    · rintro (hw | hw)
      · exact hw
      · exact absurd hw hcond
    · exact Or.inl

/-! userdel characterization. -/

theorem userdel_name (u : String) (grp : Group) :
    ({ grp with members := grp.members.filter (fun m => m ≠ u) } : Group).name = grp.name := rfl

theorem userdel_gid (u : String) (grp : Group) :
    ({ grp with members := grp.members.filter (fun m => m ≠ u) } : Group).gid = grp.gid := rfl

theorem lookupUser_userdel (v u : String) (s : SysState) :
    lookupUser (userdel v s) u = if u = v then none else lookupUser s u := by
  show (s.passwd.filter (fun e => e.name ≠ v)).find? (fun e => e.name = u) = _
  exact find?_filter_key s.passwd PasswdEntry.name u v

theorem lookupGroup_userdel (v g : String) (s : SysState) :
    lookupGroup (userdel v s) g = (lookupGroup s g).map (fun grp =>
      { grp with members := grp.members.filter (fun m => m ≠ v) }) := by
  exact find?_map_name (fun grp => userdel_name v grp) s.groups g

theorem getGroupMembers_userdel (v g : String) (s : SysState) :
    getGroupMembers (userdel v s) g = (getGroupMembers s g).filter (fun m => m ≠ v) := by
  cases h : lookupGroup s g with
  | none =>
    have h2 : lookupGroup (userdel v s) g = none := by rw [lookupGroup_userdel, h]; rfl
    rw [getGroupMembers_eq_nil h2, getGroupMembers_eq_nil h]
    rfl
  | some grp =>
    have h2 : lookupGroup (userdel v s) g =
        some { grp with members := grp.members.filter (fun m => m ≠ v) } := by
      rw [lookupGroup_userdel, h]; rfl
    rw [getGroupMembers_eq_members h2, getGroupMembers_eq_members h]

theorem isPrimaryGroup_userdel_other {v u : String} (g : String) {s : SysState} (huv : ¬u = v) :
    isPrimaryGroup (userdel v s) u g = isPrimaryGroup s u g := by
  unfold isPrimaryGroup
  rw [lookupUser_userdel, if_neg huv, lookupGroup_userdel]
  cases lookupUser s u with
  | none => rfl
  | some e =>
    cases lookupGroup s g with
    | none => rfl
    | some grp => rfl

theorem isInGroup_userdel (v u g : String) (s : SysState) :
    isInGroup (userdel v s) u g = if u = v then false else isInGroup s u g := by
  by_cases huv : u = v
  · rw [if_pos huv]
    rw [show (isInGroup (userdel v s) u g = false) = ¬(isInGroup (userdel v s) u g = true) by simp]
    rw [isInGroup_eq_true_iff]
    rintro (hmem | hprim)
    · rw [getGroupMembers_userdel] at hmem
      have : u ≠ v := by simpa using (List.mem_filter.mp hmem).2
      exact this huv
    · unfold isPrimaryGroup at hprim
      rw [lookupUser_userdel, if_pos huv] at hprim
      cases hprim
  · rw [if_neg huv, Bool.eq_iff_iff, isInGroup_eq_true_iff, isInGroup_eq_true_iff,
      getGroupMembers_userdel, isPrimaryGroup_userdel_other g huv]
    constructor
    · rintro (hmem | hp)
      · exact Or.inl (List.mem_filter.mp hmem).1
      · exact Or.inr hp
    · rintro (hmem | hp)
      · exact Or.inl (List.mem_filter.mpr ⟨hmem, by simpa using huv⟩)
      · exact Or.inr hp

theorem userExists_userdel (v u : String) (s : SysState) :
    userExists (userdel v s) u = if u = v then false else userExists s u := by
  unfold userExists
  rw [lookupUser_userdel]
  by_cases huv : u = v
  · simp [huv]
  · simp [huv]

/-! useradd characterization. -/

theorem lookupUser_useradd (v : String) (gid : Nat) (u : String) (s : SysState) :
    lookupUser (useradd v gid s) u =
      ((lookupUser s u).or (if v = u then some ⟨v, gid⟩ else none)) := by
  unfold lookupUser useradd
  rw [List.find?_append]
  congr 1
  simp only [List.find?]
  split <;> simp_all

theorem groups_useradd (v : String) (gid : Nat) (s : SysState) :
    (useradd v gid s).groups = s.groups := rfl

theorem isInGroup_useradd_other {v : String} {gid : Nat} {u : String} (g : String) {s : SysState}
    (hne : u ≠ v) : isInGroup (useradd v gid s) u g = isInGroup s u g := by
  unfold isInGroup getGroupMembers isPrimaryGroup
  rw [lookupGroup_congr (groups_useradd v gid s), lookupUser_useradd]
  cases lookupUser s u with
  | none =>
    rw [show ((none : Option PasswdEntry).or (if v = u then some ⟨v, gid⟩ else none)) =
      (if v = u then some (⟨v, gid⟩ : PasswdEntry) else none) from rfl]
    rw [if_neg (fun h => hne h.symm)]
  | some e => rfl

/-! groupdel characterization. -/

theorem lookupGroup_groupdel (g' g : String) (s : SysState) :
    lookupGroup (groupdel g' s) g = if g = g' then none else lookupGroup s g := by
  show (s.groups.filter (fun grp => grp.name ≠ g')).find? (fun grp => grp.name = g) = _
  exact find?_filter_key s.groups Group.name g g'

theorem groupdel_passwd (g : String) (s : SysState) : (groupdel g s).passwd = s.passwd := rfl

/-! GeneratePassword facts (claim C2). -/

theorem b64char_mem (n : Nat) : b64char n ∈ base64Table := by
  unfold b64char
  rw [List.getD_eq_getElem?_getD]
  cases h : base64Table[n]? with
  | none => decide
  | some c => exact List.getElem?_mem h

theorem base64Table_alnum : ∀ c ∈ base64Table, c = '/' ∨ c = '+' ∨ isAlnumChar c = true := by
  decide

theorem mem_base64EncodeStd :
    ∀ (bs : List Nat) (c : Char), c ∈ base64EncodeStd bs → c ∈ base64Table ∨ c = '='
  | [], c, h => by cases h
  | [b1], c, h => by
    unfold base64EncodeStd at h
    simp only [List.mem_cons, List.not_mem_nil, or_false] at h
    rcases h with rfl | rfl | rfl | rfl
    · exact Or.inl (b64char_mem _)
    · exact Or.inl (b64char_mem _)
    · exact Or.inr rfl
    · exact Or.inr rfl
  | [b1, b2], c, h => by
    unfold base64EncodeStd at h
    simp only [List.mem_cons, List.not_mem_nil, or_false] at h
    rcases h with rfl | rfl | rfl | rfl
    · exact Or.inl (b64char_mem _)
    · exact Or.inl (b64char_mem _)
    · exact Or.inl (b64char_mem _)
    · exact Or.inr rfl
  | b1 :: b2 :: b3 :: b4 :: rest, c, h => by
    unfold base64EncodeStd at h
    simp only [List.mem_cons] at h
    rcases h with rfl | rfl | rfl | rfl | h
    · exact Or.inl (b64char_mem _)
    · exact Or.inl (b64char_mem _)
    · exact Or.inl (b64char_mem _)
    · exact Or.inl (b64char_mem _)
    · exact mem_base64EncodeStd (b4 :: rest) c h
  | [b1, b2, b3], c, h => by
    unfold base64EncodeStd at h
    simp only [List.mem_cons, List.not_mem_nil, or_false,
      show base64EncodeStd [] = [] from rfl] at h
    rcases h with rfl | rfl | rfl | rfl
    · exact Or.inl (b64char_mem _)
    · exact Or.inl (b64char_mem _)
    · exact Or.inl (b64char_mem _)
    · exact Or.inl (b64char_mem _)

theorem mem_generatePasswordChars {bytes : List Nat} {c : Char}
    (h : c ∈ generatePasswordChars bytes) : isAlnumChar c = true := by
  unfold generatePasswordChars at h
  have hstrip : c ∈ stripB64 (base64EncodeStd bytes) := by
    by_cases hlen : (stripB64 (base64EncodeStd bytes)).length > 16
    · rw [if_pos hlen] at h
      exact List.mem_of_mem_take h
    · rwa [if_neg hlen] at h
  have hval := List.mem_filter.mp hstrip
  have hne : ¬(c = '/' ∨ c = '+' ∨ c = '=') := by simpa using hval.2
  rcases mem_base64EncodeStd _ c hval.1 with hmem | hmem
  · rcases base64Table_alnum c hmem with h1 | h1 | h1
    · exact absurd (Or.inl h1) hne
    · exact absurd (Or.inr (Or.inl h1)) hne
    · exact h1
  · exact absurd (Or.inr (Or.inr hmem)) hne

/-- C2 (amended): for every 18-byte output of the random source,
GeneratePassword returns a string of AT MOST 16 characters, every character
of which is alphanumeric.  The length is not always exactly 16: the code only
truncates after stripping '/', '+' and '=', so when fewer than 16 of the 24
base64 characters are alphanumeric the result is shorter (see the
counterexample). -/
theorem c2_generatePassword_alnum_le16 (bytes : List Nat) (h : bytes.length = 18) :
    (GeneratePassword bytes).length ≤ 16 ∧
    ∀ c ∈ (GeneratePassword bytes).toList, isAlnumChar c = true := by
  constructor
  · show (generatePasswordChars bytes).length ≤ 16
    have hdef : generatePasswordChars bytes =
        (if (stripB64 (base64EncodeStd bytes)).length > 16
         then (stripB64 (base64EncodeStd bytes)).take 16
         else stripB64 (base64EncodeStd bytes)) := rfl
    rw [hdef]
    by_cases hlen : (stripB64 (base64EncodeStd bytes)).length > 16
    · rw [if_pos hlen, List.length_take]
      exact Nat.min_le_left 16 _
    · rw [if_neg hlen]
      omega
  · intro c hc
    exact mem_generatePasswordChars hc

/-- C2 counterexample: on the 18-byte draw of all 0xFF bytes the base64
encoding is 24 '/' characters, all of which are stripped, so GeneratePassword
returns the empty string, not a 16-character string. -/
theorem c2_counterexample :
    (List.replicate 18 (255 : Nat)).length = 18 ∧
    GeneratePassword (List.replicate 18 (255 : Nat)) = "" ∧
    (GeneratePassword (List.replicate 18 (255 : Nat))).length ≠ 16 := by
  refine ⟨by decide, by decide, by decide⟩

/-- C2 witness: the amended theorem applied at the all-zero 18-byte draw. -/
theorem c2_witness :
    (List.replicate 18 (0 : Nat)).length = 18 ∧
    ((GeneratePassword (List.replicate 18 (0 : Nat))).length ≤ 16 ∧
      ∀ c ∈ (GeneratePassword (List.replicate 18 (0 : Nat))).toList, isAlnumChar c = true) :=
  ⟨by decide, c2_generatePassword_alnum_le16 (List.replicate 18 0) (by decide)⟩

/-! SetupSSHKey facts (claim C4). -/

theorem lookupKeyFile_setKeyFile_self (u : String) (kf : KeyFile) (l : List (String × KeyFile)) :
    (setKeyFile u kf l).find? (fun e => e.1 = u) = some (u, kf) := by
  unfold setKeyFile
  rw [List.find?_append]
  have h1 : (l.filter (fun e => e.1 ≠ u)).find? (fun e => e.1 = u) = none := by
    refine List.find?_eq_none.mpr ?_
    intro e he
    have := (List.mem_filter.mp he).2
    simpa using this
  rw [h1]
  show ([(u, kf)].find? (fun e => decide (e.1 = u))) = some (u, kf)
  rw [List.find?_cons_of_pos _ (by simp)]

theorem lookupKeyFile_setKeyFile_other {u v : String} (kf : KeyFile)
    (l : List (String × KeyFile)) (hne : v ≠ u) :
    (setKeyFile u kf l).find? (fun e => e.1 = v) = l.find? (fun e => e.1 = v) := by
  unfold setKeyFile
  rw [List.find?_append]
  rw [find?_filter_key l Prod.fst v u, if_neg hne]
  rw [show ([(u, kf)].find? (fun e => decide (e.1 = v))) = none from
    by rw [List.find?_cons_of_neg _ (by simpa using fun h => hne h.symm)]; rfl]
  cases l.find? (fun e => decide (e.1 = v)) <;> rfl

/-- C4 (amended): for every accepted key, SetupSSHKey reports success and
stores, at the path keyed by the username, a file whose content is exactly
"restrict,port-forwarding key\n", owned by root, with permission bits 0644
(owner read/write, group and others read — NOT owner-read-only as the claim
stated), overwriting any previous file for that username and touching
nothing else; for a rejected key it fails and writes nothing. -/
theorem c4_setupSSHKey_spec (u k : String) (s : SysState) :
    (ValidatePublicKey k = true →
      (SetupSSHKey u k s).2 = none ∧
      lookupKeyFile (SetupSSHKey u k s).1 u =
        some ⟨"restrict,port-forwarding " ++ k ++ "\n", "root", 0o644⟩ ∧
      (∀ v, v ≠ u → lookupKeyFile (SetupSSHKey u k s).1 v = lookupKeyFile s v) ∧
      (SetupSSHKey u k s).1.passwd = s.passwd ∧
      (SetupSSHKey u k s).1.groups = s.groups ∧
      (SetupSSHKey u k s).1.shadow = s.shadow ∧
      (SetupSSHKey u k s).1.cronDeny = s.cronDeny ∧
      (SetupSSHKey u k s).1.atDeny = s.atDeny) ∧
    (ValidatePublicKey k = false → SetupSSHKey u k s = (s, some "invalid public key format")) := by
  constructor
  · intro hv
    unfold SetupSSHKey
    simp only [hv, if_true]
    refine ⟨by trivial, ?_, ?_, by trivial, by trivial, by trivial, by trivial, by trivial⟩
    · show ((setKeyFile u _ s.keyFiles).find? (fun e => e.1 = u)).map Prod.snd = _
      rw [lookupKeyFile_setKeyFile_self]
      rfl
    · intro v hvne
      show ((setKeyFile u _ s.keyFiles).find? (fun e => e.1 = v)).map Prod.snd = _
      rw [lookupKeyFile_setKeyFile_other _ s.keyFiles hvne]
      rfl
  · intro hv
    unfold SetupSSHKey
    rw [if_neg (by simp [hv])]

/-- C4 counterexample: the key file written for a valid key has permission
bits 0644 = 420, whose low six bits (group and other permissions, mode % 64)
are not zero — group and others can read the file, contradicting the claimed
"permissions allowing only owner read". -/
theorem c4_counterexample :
    (lookupKeyFile (SetupSSHKey "alice" "ssh-ed25519 AAAA" initState).1 "alice").map KeyFile.mode
      = some 0o644 ∧ ¬(0o644 % 64 = 0) := by
  refine ⟨by decide, by decide⟩

/-- C4 witness: the amended theorem applied at a concrete username and key. -/
theorem c4_witness :
    ValidatePublicKey "ssh-ed25519 AAAA" = true ∧
    ((SetupSSHKey "alice" "ssh-ed25519 AAAA" initState).2 = none ∧
      lookupKeyFile (SetupSSHKey "alice" "ssh-ed25519 AAAA" initState).1 "alice" =
        some ⟨"restrict,port-forwarding " ++ "ssh-ed25519 AAAA" ++ "\n", "root", 0o644⟩ ∧
      (∀ v, v ≠ "alice" →
        lookupKeyFile (SetupSSHKey "alice" "ssh-ed25519 AAAA" initState).1 v =
          lookupKeyFile initState v) ∧
      (SetupSSHKey "alice" "ssh-ed25519 AAAA" initState).1.passwd = initState.passwd ∧
      (SetupSSHKey "alice" "ssh-ed25519 AAAA" initState).1.groups = initState.groups ∧
      (SetupSSHKey "alice" "ssh-ed25519 AAAA" initState).1.shadow = initState.shadow ∧
      (SetupSSHKey "alice" "ssh-ed25519 AAAA" initState).1.cronDeny = initState.cronDeny ∧
      (SetupSSHKey "alice" "ssh-ed25519 AAAA" initState).1.atDeny = initState.atDeny) :=
  ⟨by decide, (c4_setupSSHKey_spec "alice" "ssh-ed25519 AAAA" initState).1 (by decide)⟩

/-! GetAuthMode facts (claims C5, C10). -/

theorem primaryInGroup_iff (s : SysState) (u g : String) :
    (isPrimaryGroup s u g).getD false = true ↔
      ∃ e grp, lookupUser s u = some e ∧ lookupGroup s g = some grp ∧ e.gid = grp.gid := by
  unfold isPrimaryGroup
  cases he : lookupUser s u with
  | none =>
    simp only [Option.getD_none]
    constructor
    · intro h; cases h
    · rintro ⟨e, grp, hee, _, _⟩; cases hee
  | some e =>
    cases hg : lookupGroup s g with
    | none =>
      simp only [Option.getD_none]
      constructor
      · intro h; cases h
      · rintro ⟨e', grp, _, hgg, _⟩; cases hgg
    | some grp =>
      simp only [Option.getD_some, decide_eq_true_eq]
      constructor
      · intro h; exact ⟨e, grp, rfl, rfl, h⟩
      · rintro ⟨e', grp', he', hg', hh⟩
        cases he'; cases hg'
        exact hh

theorem isInGroup_iff_memberOf (s : SysState) (u g : String) :
    isInGroup s u g = true ↔ memberOf s u g := by
  rw [isInGroup_eq_true_iff]
  unfold memberOf
  exact or_congr Iff.rfl (primaryInGroup_iff s u g)

/-- C5: GetAuthMode checks password-group membership (supplementary or
primary) first and returns password mode if present; otherwise checks the key
group the same way; otherwise reports the not-a-tunnel-user error (none); a
user somehow in both groups gets password mode (password wins the
tie-break). -/
theorem c5_getAuthMode_order (s : SysState) (u : String) :
    (memberOf s u GroupPasswordAuth → GetAuthMode s u = some AuthMode.password) ∧
    (¬memberOf s u GroupPasswordAuth → memberOf s u GroupKeyAuth →
      GetAuthMode s u = some AuthMode.key) ∧
    (¬memberOf s u GroupPasswordAuth → ¬memberOf s u GroupKeyAuth →
      GetAuthMode s u = none) ∧
    (memberOf s u GroupPasswordAuth → memberOf s u GroupKeyAuth →
      GetAuthMode s u = some AuthMode.password) := by
  refine ⟨?_, ?_, ?_, ?_⟩
  · intro hm
    unfold GetAuthMode
    rw [if_pos ((isInGroup_iff_memberOf s u GroupPasswordAuth).mpr hm)]
  · intro hnp hk
    unfold GetAuthMode
    rw [if_neg (fun h => hnp ((isInGroup_iff_memberOf s u GroupPasswordAuth).mp h)),
      if_pos ((isInGroup_iff_memberOf s u GroupKeyAuth).mpr hk)]
  · intro hnp hnk
    unfold GetAuthMode
    rw [if_neg (fun h => hnp ((isInGroup_iff_memberOf s u GroupPasswordAuth).mp h)),
      if_neg (fun h => hnk ((isInGroup_iff_memberOf s u GroupKeyAuth).mp h))]
  · intro hm _
    unfold GetAuthMode
    rw [if_pos ((isInGroup_iff_memberOf s u GroupPasswordAuth).mpr hm)]

/-- C5 witness: the theorem applied at a state whose one user is (in
violation of the invariant) a supplementary member of both tunnel groups;
password mode wins. -/
theorem c5_witness :
    GetAuthMode ⟨[⟨"alice", 1000⟩],
      [⟨GroupPasswordAuth, 1000, ["alice"]⟩, ⟨GroupKeyAuth, 1001, ["alice"]⟩],
      [], [], none, none, 1002⟩ "alice" = some AuthMode.password :=
  (c5_getAuthMode_order _ "alice").2.2.2 (Or.inl (by decide)) (Or.inl (by decide))

/-- C10: GetAuthMode and IsTunnelUser are total; a failed account lookup (the
user is absent from the account database) silently degrades the primary-group
check to an error that isInGroup swallows, so the mode is decided by
supplementary membership alone and the only reportable failure is the
not-a-tunnel-user result (none); a missing group likewise yields
non-membership; IsTunnelUser is exactly definedness of GetAuthMode. -/
theorem c10_getAuthMode_total (s : SysState) (u : String) :
    (userExists s u = false →
      isPrimaryGroup s u GroupPasswordAuth = none ∧
      isPrimaryGroup s u GroupKeyAuth = none) ∧
    (userExists s u = false → GetAuthMode s u =
      (if u ∈ getGroupMembers s GroupPasswordAuth then some AuthMode.password
       else if u ∈ getGroupMembers s GroupKeyAuth then some AuthMode.key
       else none)) ∧
    (∀ g, lookupGroup s g = none → isInGroup s u g = false) ∧
    IsTunnelUser s u = (GetAuthMode s u).isSome := by
  have hlook : userExists s u = false → lookupUser s u = none := by
    intro h
    unfold userExists at h
    exact Option.not_isSome_iff_eq_none.mp (by rw [h]; intro hc; cases hc)
  refine ⟨?_, ?_, ?_, rfl⟩
  · intro h
    constructor <;> (unfold isPrimaryGroup; rw [hlook h])
  · intro h
    have hprim : ∀ g, (isPrimaryGroup s u g).getD false = false := by
      intro g
      unfold isPrimaryGroup
      rw [hlook h]
      rfl
    unfold GetAuthMode isInGroup
    rw [hprim, hprim]
    by_cases h1 : u ∈ getGroupMembers s GroupPasswordAuth
    · rw [if_pos (by simp [h1]), if_pos h1]
    · rw [if_neg (by simp [h1]), if_neg h1]
      by_cases h2 : u ∈ getGroupMembers s GroupKeyAuth
      · rw [if_pos (by simp [h2]), if_pos h2]
      · rw [if_neg (by simp [h2]), if_neg h2]
  · intro g hg
    unfold isInGroup
    rw [getGroupMembers_eq_nil hg]
    have hprim : isPrimaryGroup s u g = none := by
      unfold isPrimaryGroup
      cases lookupUser s u with
      | none => rfl
      | some e => rw [hg]
    rw [hprim]
    rfl

/-- C10 witness: the theorem applied to a username absent from every database
of a concrete state, each hypothesis discharged there. -/
theorem c10_witness :
    (isPrimaryGroup initState "ghost" GroupPasswordAuth = none ∧
      isPrimaryGroup initState "ghost" GroupKeyAuth = none) ∧
    (GetAuthMode initState "ghost" =
      (if "ghost" ∈ getGroupMembers initState GroupPasswordAuth then some AuthMode.password
       else if "ghost" ∈ getGroupMembers initState GroupKeyAuth then some AuthMode.key
       else none)) ∧
    isInGroup initState "ghost" GroupPasswordAuth = false ∧
    IsTunnelUser initState "ghost" = (GetAuthMode initState "ghost").isSome :=
  ⟨(c10_getAuthMode_total initState "ghost").1 (by decide),
   (c10_getAuthMode_total initState "ghost").2.1 (by decide),
   (c10_getAuthMode_total initState "ghost").2.2.1 GroupPasswordAuth (by decide),
   (c10_getAuthMode_total initState "ghost").2.2.2⟩

/-! splitLines facts and the CleanupDenyFiles characterization (claim C3). -/

theorem splitLinesGo_noNL : ∀ (cs cur : List Char), (∀ c ∈ cur, c ≠ '\n') →
    ∀ line ∈ splitLinesGo cs cur, ∀ c ∈ line, c ≠ '\n'
  | [], cur, hcur, line, hline => by
    simp only [splitLinesGo] at hline
    split at hline
    · cases hline
    · rw [List.mem_singleton] at hline
      subst hline
      intro c hc
      exact hcur c (List.mem_reverse.mp hc)
  | c0 :: cs, cur, hcur, line, hline => by
    simp only [splitLinesGo] at hline
    by_cases hnl : c0 = '\n'
    · rw [if_pos hnl] at hline
      rcases List.mem_cons.mp hline with rfl | hline
      · intro c hc
        exact hcur c (List.mem_reverse.mp hc)
      · exact splitLinesGo_noNL cs [] (by intro c hc; cases hc) line hline
    · rw [if_neg hnl] at hline
      refine splitLinesGo_noNL cs (c0 :: cur) ?_ line hline
      intro c hc
      rcases List.mem_cons.mp hc with rfl | hc
      · exact hnl
      · exact hcur c hc

theorem splitLinesGo_append (l : List Char) (rest cur : List Char)
    (h : ∀ c ∈ l, c ≠ '\n') :
    splitLinesGo (l ++ rest) cur = splitLinesGo rest (l.reverse ++ cur) := by
  induction l generalizing cur with
  | nil => simp
  | cons c0 l ih =>
    have hc : ¬(c0 = '\n') := h c0 (List.mem_cons_self c0 l)
    show splitLinesGo (c0 :: (l ++ rest)) cur = _
    simp only [splitLinesGo]
    rw [if_neg hc, ih (c0 :: cur) (fun x hx => h x (List.mem_cons_of_mem c0 hx))]
    simp

theorem splitLinesGo_flatten : ∀ (L : List (List Char)),
    (∀ l ∈ L, ∀ c ∈ l, c ≠ '\n') →
    splitLinesGo ((L.map (fun l => l ++ ['\n'])).flatten) [] = L
  | [], _ => rfl
  | l :: L, h => by
    show splitLinesGo ((l ++ ['\n']) ++ (L.map (fun x => x ++ ['\n'])).flatten) [] = l :: L
    rw [List.append_assoc,
      splitLinesGo_append l _ [] (fun c hc => h l (List.mem_cons_self l L) c hc)]
    show splitLinesGo ('\n' :: (L.map (fun x => x ++ ['\n'])).flatten) (l.reverse ++ []) = l :: L
    simp only [splitLinesGo, if_true]
    rw [splitLinesGo_flatten L (fun x hx => h x (List.mem_cons_of_mem l hx))]
    simp

theorem toList_append (a b : String) : (a ++ b).toList = a.toList ++ b.toList :=
  String.data_append a b

theorem foldl_append_data : ∀ (L : List String) (acc : String),
    (L.foldl (· ++ ·) acc).data = acc.data ++ (L.map String.data).flatten
  | [], acc => by simp
  | s :: L, acc => by
    show (L.foldl (· ++ ·) (acc ++ s)).data = _
    rw [foldl_append_data L (acc ++ s), String.data_append]
    simp [List.append_assoc]

theorem toList_join (L : List String) :
    (String.join L).toList = (L.map String.toList).flatten := by
  show (L.foldl (· ++ ·) "").data = _
  rw [foldl_append_data L ""]
  rfl

theorem splitLines_join_map (L : List String)
    (h : ∀ l ∈ L, ∀ c ∈ l.toList, c ≠ '\n') :
    splitLines (String.join (L.map (fun l => l ++ "\n"))) = L := by
  have h1 : (String.join (L.map (fun l => l ++ "\n"))).toList
      = ((L.map (fun l => l ++ "\n")).map String.toList).flatten := toList_join _
  have h2 : (L.map (fun l => l ++ "\n")).map String.toList
      = (L.map String.toList).map (fun l => l ++ ['\n']) := by
    rw [List.map_map, List.map_map]
    refine List.map_congr_left ?_
    intro l _
    exact toList_append l "\n"
  unfold splitLines
  rw [h1, h2, splitLinesGo_flatten (L.map String.toList) ?_]
  · rw [List.map_map]
    have hid : (String.mk ∘ String.toList) = id := funext (fun str => rfl)
    rw [hid, List.map_id]
  · intro l hl
    rcases List.mem_map.mp hl with ⟨str, hstr, rfl⟩
    exact h str hstr

theorem splitLines_noNL (str : String) :
    ∀ line ∈ splitLines str, ∀ c ∈ line.toList, c ≠ '\n' := by
  intro line hline
  unfold splitLines at hline
  rcases List.mem_map.mp hline with ⟨l, hl, rfl⟩
  intro c hc
  exact splitLinesGo_noNL str.toList [] (by intro x hx; cases hx) l hl c hc

/-- C3 (amended): CleanupDenyFiles applies the same per-content cleanup to
both deny files; when no line is removed by the existence filter the file
content is returned untouched; when at least one line is removed, the
rewritten content parses back to exactly the kept lines WITHOUT the blank
lines, in their original order — blank lines survive the filter but are
dropped by the rewrite, so they are preserved only in the untouched case. -/
theorem c3_cleanupDenyFiles_spec (s : SysState) (c : String) :
    (CleanupDenyFiles s).cronDeny = s.cronDeny.map (cleanupDenyContent s) ∧
    (CleanupDenyFiles s).atDeny = s.atDeny.map (cleanupDenyContent s) ∧
    (((splitLines c).filter (fun l => l = "" ∨ userExists s l = true)).length =
        (splitLines c).length → cleanupDenyContent s c = c) ∧
    (((splitLines c).filter (fun l => l = "" ∨ userExists s l = true)).length ≠
        (splitLines c).length →
      splitLines (cleanupDenyContent s c) =
        ((splitLines c).filter (fun l => l = "" ∨ userExists s l = true)).filter
          (fun l => l ≠ "")) := by
  have hdef : cleanupDenyContent s c =
      if ((splitLines c).filter (fun l => l = "" ∨ userExists s l = true)).length <
          (splitLines c).length then
        String.join ((((splitLines c).filter (fun l => l = "" ∨ userExists s l = true)).filter
          (fun l => l ≠ "")).map (fun l => l ++ "\n"))
      else c := rfl
  refine ⟨rfl, rfl, ?_, ?_⟩
  · intro heq
    rw [hdef, if_neg (by omega)]
  · intro hne
    have hle := List.length_filter_le (fun l => l = "" ∨ userExists s l = true) (splitLines c)
    have hlt : ((splitLines c).filter (fun l => l = "" ∨ userExists s l = true)).length <
        (splitLines c).length := lt_of_le_of_ne hle hne
    rw [hdef, if_pos hlt]
    refine splitLines_join_map _ ?_
    intro l hl
    exact splitLines_noNL c l (List.mem_of_mem_filter (List.mem_of_mem_filter hl))

/-- C3 counterexample: on the deny file "alice\n\nghost\nbob\n" in a state
where alice and bob exist and ghost does not, the rewrite drops the blank
line: the result is "alice\nbob\n", whose lines differ from the
lines-with-only-ghost-removed that the claim promises (blank line kept). -/
theorem c3_counterexample :
    (CleanupDenyFiles ⟨[⟨"alice", 1⟩, ⟨"bob", 1⟩], [], [], [],
        some "alice\n\nghost\nbob\n", none, 2⟩).cronDeny = some "alice\nbob\n" ∧
    splitLines "alice\nbob\n" ≠
      (splitLines "alice\n\nghost\nbob\n").filter
        (fun l => l = "" ∨ userExists ⟨[⟨"alice", 1⟩, ⟨"bob", 1⟩], [], [], [],
          some "alice\n\nghost\nbob\n", none, 2⟩ l = true) := by
  refine ⟨by decide, by decide⟩

/-- C3 witness: the amended theorem applied at the spec's own example — the
deny list "alice\nghost\nbob\n" with only ghost nonexistent — whose cleanup
parses back to exactly ["alice", "bob"]. -/
theorem c3_witness :
    splitLines (cleanupDenyContent
        ⟨[⟨"alice", 1⟩, ⟨"bob", 1⟩], [], [], [], some "alice\nghost\nbob\n", none, 2⟩
        "alice\nghost\nbob\n") =
      ((splitLines "alice\nghost\nbob\n").filter
        (fun l => l = "" ∨ userExists
          ⟨[⟨"alice", 1⟩, ⟨"bob", 1⟩], [], [], [], some "alice\nghost\nbob\n", none, 2⟩
          l = true)).filter (fun l => l ≠ "") :=
  (c3_cleanupDenyFiles_spec
    ⟨[⟨"alice", 1⟩, ⟨"bob", 1⟩], [], [], [], some "alice\nghost\nbob\n", none, 2⟩
    "alice\nghost\nbob\n").2.2.2 (by decide)

/-! listUsers facts (claim C6). -/

theorem mem_addUsersWithMode (m : AuthMode) (names : List String) :
    ∀ (seen : List String) (acc : List UserInfo) (x : UserInfo),
    x ∈ (addUsersWithMode m names seen acc).2 ↔
      x ∈ acc ∨ (x.authMode = m ∧ x.username ∈ names ∧ x.username ∉ seen) := by
  induction names with
  | nil =>
    intro seen acc x
    simp [addUsersWithMode]
  | cons u rest ih =>
    intro seen acc x
    simp only [addUsersWithMode]
    by_cases hu : u ∈ seen
    · rw [if_pos hu, ih seen acc x]
      constructor
      · rintro (hx | ⟨hm, hr, hs⟩)
        · exact Or.inl hx
        · exact Or.inr ⟨hm, List.mem_cons_of_mem u hr, hs⟩
      · rintro (hx | ⟨hm, hur, hs⟩)
        · exact Or.inl hx
        · rcases List.mem_cons.mp hur with rfl | hr
          · exact absurd hu hs
          · exact Or.inr ⟨hm, hr, hs⟩
    · rw [if_neg hu, ih]
      constructor
      · rintro (hx | ⟨hm, hr, hs⟩)
        · rcases List.mem_append.mp hx with hx | hx
          · exact Or.inl hx
          · rw [List.mem_singleton] at hx
            subst hx
            exact Or.inr ⟨rfl, List.mem_cons_self u rest, hu⟩
        · have hs2 : x.username ∉ seen := fun hc => hs (List.mem_cons_of_mem u hc)
          exact Or.inr ⟨hm, List.mem_cons_of_mem u hr, hs2⟩
      · rintro (hx | ⟨hm, hur, hs⟩)
        · exact Or.inl (List.mem_append.mpr (Or.inl hx))
        · by_cases hxu : x.username = u
          · refine Or.inl (List.mem_append.mpr (Or.inr ?_))
            rw [List.mem_singleton]
            cases x
            simp only at hm hxu
            rw [hm, hxu]
          · rcases List.mem_cons.mp hur with hc | hr
            · exact absurd hc hxu
            · refine Or.inr ⟨hm, hr, ?_⟩
              intro hc
              rcases List.mem_cons.mp hc with hc | hc
              · exact hxu hc
              · exact hs hc

theorem mem_addUsersWithMode_seen (m : AuthMode) (names : List String) :
    ∀ (seen : List String) (acc : List UserInfo) (x : String),
    x ∈ (addUsersWithMode m names seen acc).1 ↔ x ∈ names ∨ x ∈ seen := by
  induction names with
  | nil =>
    intro seen acc x
    simp [addUsersWithMode]
  | cons u rest ih =>
    intro seen acc x
    simp only [addUsersWithMode]
    by_cases hu : u ∈ seen
    · rw [if_pos hu, ih seen acc x]
      constructor
      · rintro (hr | hs)
        · exact Or.inl (List.mem_cons_of_mem u hr)
        · exact Or.inr hs
      · rintro (hur | hs)
        · rcases List.mem_cons.mp hur with rfl | hr
          · exact Or.inr hu
          · exact Or.inl hr
        · exact Or.inr hs
    · rw [if_neg hu, ih]
      constructor
      · rintro (hr | hs)
        · exact Or.inl (List.mem_cons_of_mem u hr)
        · rcases List.mem_cons.mp hs with rfl | hs
          · exact Or.inl (List.mem_cons_self _ _)
          · exact Or.inr hs
      · rintro (hur | hs)
        · rcases List.mem_cons.mp hur with rfl | hr
          · exact Or.inr (List.mem_cons_self _ _)
          · exact Or.inl hr
        · exact Or.inr (List.mem_cons_of_mem u hs)

theorem addUsersWithMode_nodup (m : AuthMode) (names : List String) :
    ∀ (seen : List String) (acc : List UserInfo),
    (∀ e ∈ acc, e.username ∈ seen) → (acc.map UserInfo.username).Nodup →
    ((addUsersWithMode m names seen acc).2.map UserInfo.username).Nodup ∧
    (∀ e ∈ (addUsersWithMode m names seen acc).2,
      e.username ∈ (addUsersWithMode m names seen acc).1) := by
  induction names with
  | nil =>
    intro seen acc hcl hnd
    exact ⟨hnd, hcl⟩
  | cons u rest ih =>
    intro seen acc hcl hnd
    simp only [addUsersWithMode]
    by_cases hu : u ∈ seen
    · rw [if_pos hu]
      exact ih seen acc hcl hnd
    · rw [if_neg hu]
      refine ih (u :: seen) (acc ++ [⟨u, m⟩]) ?_ ?_
      · intro e he
        rcases List.mem_append.mp he with he | he
        · exact List.mem_cons_of_mem u (hcl e he)
        · rw [List.mem_singleton] at he
          subst he
          exact List.mem_cons_self u seen
      · rw [List.map_append]
        refine List.Nodup.append hnd (by simp) ?_
        intro x hx hx2
        rcases List.mem_map.mp hx with ⟨e, he, rfl⟩
        simp only [List.map_cons, List.map_nil, List.mem_singleton] at hx2
        exact hu (hx2 ▸ hcl e he)

theorem addUsersWithMode_split (m : AuthMode) (names : List String) :
    ∀ (seen : List String) (acc : List UserInfo),
    ∃ added, (addUsersWithMode m names seen acc).2 = acc ++ added ∧
      ∀ e ∈ added, e.authMode = m := by
  induction names with
  | nil =>
    intro seen acc
    exact ⟨[], by simp [addUsersWithMode], by intro e he; cases he⟩
  | cons u rest ih =>
    intro seen acc
    simp only [addUsersWithMode]
    by_cases hu : u ∈ seen
    · rw [if_pos hu]
      exact ih seen acc
    · rw [if_neg hu]
      rcases ih (u :: seen) (acc ++ [⟨u, m⟩]) with ⟨added, hadd, hmode⟩
      refine ⟨⟨u, m⟩ :: added, ?_, ?_⟩
      · rw [hadd, List.append_assoc]
        rfl
      · intro e he
        rcases List.mem_cons.mp he with rfl | he
        · rfl
        · exact hmode e he

theorem listUsers_mem_password (s : SysState) (u : String) :
    (⟨u, AuthMode.password⟩ : UserInfo) ∈ listUsers s ↔ u ∈ passwordNames s := by
  have hdef : listUsers s =
      (addUsersWithMode AuthMode.key (keyNames s)
        (addUsersWithMode AuthMode.password (passwordNames s) [] []).1
        (addUsersWithMode AuthMode.password (passwordNames s) [] []).2).2 := rfl
  rw [hdef, mem_addUsersWithMode, mem_addUsersWithMode]
  constructor
  · rintro ((hx | ⟨_, hm, _⟩) | ⟨hk, _, _⟩)
    · cases hx
    · exact hm
    · cases hk
  · intro hm
    exact Or.inl (Or.inr ⟨rfl, hm, List.not_mem_nil _⟩)

theorem listUsers_mem_key (s : SysState) (u : String) :
    (⟨u, AuthMode.key⟩ : UserInfo) ∈ listUsers s ↔
      (u ∈ keyNames s ∧ u ∉ passwordNames s) := by
  have hdef : listUsers s =
      (addUsersWithMode AuthMode.key (keyNames s)
        (addUsersWithMode AuthMode.password (passwordNames s) [] []).1
        (addUsersWithMode AuthMode.password (passwordNames s) [] []).2).2 := rfl
  rw [hdef, mem_addUsersWithMode, mem_addUsersWithMode, mem_addUsersWithMode_seen]
  constructor
  · rintro ((hx | ⟨hm, _, _⟩) | ⟨_, hk, hs⟩)
    · cases hx
    · cases hm
    · refine ⟨hk, fun hc => hs ?_⟩
      exact Or.inl hc
  · rintro ⟨hk, hnp⟩
    refine Or.inr ⟨rfl, hk, ?_⟩
    rintro (hc | hc)
    · exact hnp hc
    · cases hc

theorem listUsers_nodup (s : SysState) :
    ((listUsers s).map UserInfo.username).Nodup := by
  have hdef : listUsers s =
      (addUsersWithMode AuthMode.key (keyNames s)
        (addUsersWithMode AuthMode.password (passwordNames s) [] []).1
        (addUsersWithMode AuthMode.password (passwordNames s) [] []).2).2 := rfl
  rw [hdef]
  have h1 := addUsersWithMode_nodup AuthMode.password (passwordNames s) [] []
    (by intro e he; cases he) (by simp)
  exact (addUsersWithMode_nodup AuthMode.key (keyNames s) _ _ h1.2 h1.1).1

theorem listUsers_split (s : SysState) :
    ∃ l1 l2, listUsers s = l1 ++ l2 ∧ (∀ e ∈ l1, e.authMode = AuthMode.password) ∧
      (∀ e ∈ l2, e.authMode = AuthMode.key) := by
  have hdef : listUsers s =
      (addUsersWithMode AuthMode.key (keyNames s)
        (addUsersWithMode AuthMode.password (passwordNames s) [] []).1
        (addUsersWithMode AuthMode.password (passwordNames s) [] []).2).2 := rfl
  rw [hdef]
  rcases addUsersWithMode_split AuthMode.password (passwordNames s) [] [] with
    ⟨added1, hadd1, hmode1⟩
  rcases addUsersWithMode_split AuthMode.key (keyNames s)
    (addUsersWithMode AuthMode.password (passwordNames s) [] []).1
    (addUsersWithMode AuthMode.password (passwordNames s) [] []).2 with
    ⟨added2, hadd2, hmode2⟩
  refine ⟨(addUsersWithMode AuthMode.password (passwordNames s) [] []).2, added2,
    hadd2, ?_, hmode2⟩
  intro e he
  rw [hadd1] at he
  exact hmode1 e (by simpa using he)

/-- C6: listUsers returns the de-duplicated union of both tunnel groups'
members counting both supplementary and primary membership (passwordNames
and keyNames are exactly those unions), with every password-mode entry before
every key-mode entry; a username in both groups appears exactly once, as
password mode (its key entry is excluded and usernames are duplicate-free). -/
theorem c6_listUsers_spec (s : SysState) :
    (∀ u, (⟨u, AuthMode.password⟩ : UserInfo) ∈ listUsers s ↔ u ∈ passwordNames s) ∧
    (∀ u, (⟨u, AuthMode.key⟩ : UserInfo) ∈ listUsers s ↔
      (u ∈ keyNames s ∧ u ∉ passwordNames s)) ∧
    ((listUsers s).map UserInfo.username).Nodup ∧
    (∃ l1 l2, listUsers s = l1 ++ l2 ∧ (∀ e ∈ l1, e.authMode = AuthMode.password) ∧
      (∀ e ∈ l2, e.authMode = AuthMode.key)) :=
  ⟨listUsers_mem_password s, listUsers_mem_key s, listUsers_nodup s, listUsers_split s⟩

/-- C6 witness: the theorem applied at a concrete state in which one user is
in both groups: the user is listed exactly once, as a password-mode entry. -/
theorem c6_witness :
    ((⟨"alice", AuthMode.password⟩ : UserInfo) ∈ listUsers
      ⟨[⟨"alice", 1000⟩],
        [⟨GroupPasswordAuth, 1000, ["alice"]⟩, ⟨GroupKeyAuth, 1001, ["alice"]⟩],
        [], [], none, none, 1002⟩) ∧
    ¬((⟨"alice", AuthMode.key⟩ : UserInfo) ∈ listUsers
      ⟨[⟨"alice", 1000⟩],
        [⟨GroupPasswordAuth, 1000, ["alice"]⟩, ⟨GroupKeyAuth, 1001, ["alice"]⟩],
        [], [], none, none, 1002⟩) :=
  ⟨((c6_listUsers_spec _).1 "alice").mpr (by decide),
   fun hc => (by decide : ¬("alice" ∈ keyNames
      ⟨[⟨"alice", 1000⟩],
        [⟨GroupPasswordAuth, 1000, ["alice"]⟩, ⟨GroupKeyAuth, 1001, ["alice"]⟩],
        [], [], none, none, 1002⟩ ∧ "alice" ∉ passwordNames
      ⟨[⟨"alice", 1000⟩],
        [⟨GroupPasswordAuth, 1000, ["alice"]⟩, ⟨GroupKeyAuth, 1001, ["alice"]⟩],
        [], [], none, none, 1002⟩)) (((c6_listUsers_spec _).2.1 "alice").mp hc)⟩

/-! Create on a fresh username with password mode (claim C9). -/

theorem Create_password_fresh (s : SysState) (U pw pk : String) (grp : Group)
    (h1 : ¬(U = "")) (h2 : userExists (EnsureGroups s) U = false)
    (hgrp : lookupGroup (EnsureGroups s) GroupPasswordAuth = some grp) :
    Create ⟨U, AuthMode.password, pw, pk⟩ s =
      (blockScheduledTasks U (chpasswd U pw (useradd U grp.gid (EnsureGroups s))), none) := by
  unfold Create
  rw [if_neg h1]
  simp only [h2, Bool.false_eq_true, if_false, show targetGroupName AuthMode.password =
    GroupPasswordAuth from rfl, hgrp]
  rfl

/-- C9: for a valid (nonempty, not yet existing) username U, Create(U,
password) succeeds, GetAuthMode afterwards returns password mode, and the
user listing contains exactly one entry for U, a password-mode one. -/
theorem c9_create_password (s : SysState) (U pw pk : String)
    (h1 : ¬(U = "")) (h2 : userExists s U = false) :
    (Create ⟨U, AuthMode.password, pw, pk⟩ s).2 = none ∧
    GetAuthMode (Create ⟨U, AuthMode.password, pw, pk⟩ s).1 U = some AuthMode.password ∧
    (listUsers (Create ⟨U, AuthMode.password, pw, pk⟩ s).1).filter
      (fun e => e.username = U) = [(⟨U, AuthMode.password⟩ : UserInfo)] := by
  have h2e : userExists (EnsureGroups s) U = false := by
    rw [userExists_congr (EnsureGroups_passwd s)]
    exact h2
  rcases Option.isSome_iff_exists.mp (lookupGroup_EnsureGroups_isSome s).1 with ⟨grp, hgrp⟩
  have hrun := Create_password_fresh s U pw pk grp h1 h2e hgrp
  rw [hrun]
  have hlookU : lookupUser (blockScheduledTasks U (chpasswd U pw
      (useradd U grp.gid (EnsureGroups s)))) U = some (PasswdEntry.mk U grp.gid) := by
    rw [show lookupUser (blockScheduledTasks U (chpasswd U pw
        (useradd U grp.gid (EnsureGroups s)))) U
      = lookupUser (useradd U grp.gid (EnsureGroups s)) U from rfl]
    rw [lookupUser_useradd]
    have : lookupUser (EnsureGroups s) U = none := by
      unfold userExists at h2e
      exact Option.not_isSome_iff_eq_none.mp (by rw [h2e]; intro hc; cases hc)
    rw [this, if_pos rfl]
    rfl
  have hlookG : lookupGroup (blockScheduledTasks U (chpasswd U pw
      (useradd U grp.gid (EnsureGroups s)))) GroupPasswordAuth = some grp := by
    rw [show lookupGroup (blockScheduledTasks U (chpasswd U pw
        (useradd U grp.gid (EnsureGroups s)))) GroupPasswordAuth
      = lookupGroup (EnsureGroups s) GroupPasswordAuth from rfl]
    exact hgrp
  have hin : isInGroup (blockScheduledTasks U (chpasswd U pw
      (useradd U grp.gid (EnsureGroups s)))) U GroupPasswordAuth = true := by
    rw [isInGroup_eq_true_iff]
    refine Or.inr ?_
    rw [primaryInGroup_iff]
    exact ⟨PasswdEntry.mk U grp.gid, grp, hlookU, hlookG, rfl⟩
  refine ⟨rfl, ?_, ?_⟩
  · unfold GetAuthMode
    rw [if_pos hin]
  · have hmemp : U ∈ passwordNames (blockScheduledTasks U (chpasswd U pw
        (useradd U grp.gid (EnsureGroups s)))) := by
      unfold passwordNames
      refine List.mem_append.mpr (Or.inr ?_)
      have hprim : getUsersWithPrimaryGroup (blockScheduledTasks U (chpasswd U pw
          (useradd U grp.gid (EnsureGroups s)))) GroupPasswordAuth =
          some ((((EnsureGroups s).passwd ++ [PasswdEntry.mk U grp.gid]).filter
            (fun e : PasswdEntry => e.gid = grp.gid)).map
              (fun e : PasswdEntry => e.name)) := by
        unfold getUsersWithPrimaryGroup
        rw [hlookG]
        rfl
      rw [hprim]
      show U ∈ (((EnsureGroups s).passwd ++ [PasswdEntry.mk U grp.gid]).filter
        (fun e : PasswdEntry => e.gid = grp.gid)).map (fun e : PasswdEntry => e.name)
      refine List.mem_map.mpr ⟨PasswdEntry.mk U grp.gid, ?_, rfl⟩
      refine List.mem_filter.mpr ⟨List.mem_append.mpr (Or.inr (List.mem_singleton.mpr rfl)), ?_⟩
      simp
    exact filter_singleton_of_nodup (listUsers_nodup _)
      ((listUsers_mem_password _ U).mpr hmemp)

/-- C9 witness: the theorem applied to the empty initial state with the
username "bob". -/
theorem c9_witness :
    ¬("bob" = "") ∧ userExists initState "bob" = false ∧
    ((Create ⟨"bob", AuthMode.password, "pw", ""⟩ initState).2 = none ∧
      GetAuthMode (Create ⟨"bob", AuthMode.password, "pw", ""⟩ initState).1 "bob"
        = some AuthMode.password ∧
      (listUsers (Create ⟨"bob", AuthMode.password, "pw", ""⟩ initState).1).filter
        (fun e => e.username = "bob") = [(⟨"bob", AuthMode.password⟩ : UserInfo)]) :=
  ⟨by decide, by decide, c9_create_password initState "bob" "pw" "" (by decide) (by decide)⟩

/-! Create as validation gate and as update (claim C7). -/

theorem isSome_lookupGroup_gpasswdRemove (v g g' : String) (s : SysState) :
    (lookupGroup (gpasswdRemove v g s) g').isSome = (lookupGroup s g').isSome := by
  rw [lookupGroup_gpasswdRemove]
  cases lookupGroup s g' <;> rfl

theorem Create_update_password (s : SysState) (u p k : String)
    (h1 : ¬(u = "")) (h2 : userExists (EnsureGroups s) u = true) :
    Create ⟨u, AuthMode.password, p, k⟩ s =
      (blockScheduledTasks u (chpasswd u p (usermodAddGroup u GroupPasswordAuth
        (gpasswdRemove u GroupKeyAuth (gpasswdRemove u GroupPasswordAuth
          (EnsureGroups s))))), none) := by
  unfold Create
  rw [if_neg h1]
  simp only [h2, eq_self_iff_true, if_true,
    show targetGroupName AuthMode.password = GroupPasswordAuth from rfl]
  rfl

theorem Create_update_key (s : SysState) (u p k : String)
    (h1 : ¬(u = "")) (h2 : userExists (EnsureGroups s) u = true)
    (hv : ValidatePublicKey k = true) :
    Create ⟨u, AuthMode.key, p, k⟩ s =
      (blockScheduledTasks u
        (SetupSSHKey u k (usermodAddGroup u GroupKeyAuth
          (gpasswdRemove u GroupKeyAuth (gpasswdRemove u GroupPasswordAuth
            (EnsureGroups s))))).1, none) := by
  unfold Create
  rw [if_neg h1]
  simp only [h2, eq_self_iff_true, if_true,
    show targetGroupName AuthMode.key = GroupKeyAuth from rfl]
  unfold SetupSSHKey
  simp only [hv, if_true]

/-- C7 (amended): Create with an empty username fails with the validation
error before any mutation; Create on an existing username is treated as a
mode/credential update, not an error: the user's SUPPLEMENTARY membership in
both tunnel groups is stripped (a tunnel group held as primary group is left
in place — the passwd entry is untouched), the target group is added as a
supplementary group, and the requested credential is applied (chpasswd entry
for password mode, restricted key file for key mode). -/
theorem c7_create_empty_and_update (s : SysState) (u p k : String) (m : AuthMode) :
    (Create ⟨"", m, p, k⟩ s = (s, some "username is required")) ∧
    (¬(u = "") → userExists s u = true →
      ((Create ⟨u, AuthMode.password, p, k⟩ s).2 = none ∧
       u ∉ getGroupMembers (Create ⟨u, AuthMode.password, p, k⟩ s).1 GroupKeyAuth ∧
       isInGroup (Create ⟨u, AuthMode.password, p, k⟩ s).1 u GroupPasswordAuth = true ∧
       lookupUser (Create ⟨u, AuthMode.password, p, k⟩ s).1 u = lookupUser s u ∧
       lookupShadow (Create ⟨u, AuthMode.password, p, k⟩ s).1 u = some p)) ∧
    (¬(u = "") → userExists s u = true → ValidatePublicKey k = true →
      ((Create ⟨u, AuthMode.key, p, k⟩ s).2 = none ∧
       u ∉ getGroupMembers (Create ⟨u, AuthMode.key, p, k⟩ s).1 GroupPasswordAuth ∧
       isInGroup (Create ⟨u, AuthMode.key, p, k⟩ s).1 u GroupKeyAuth = true ∧
       lookupKeyFile (Create ⟨u, AuthMode.key, p, k⟩ s).1 u =
         some ⟨"restrict,port-forwarding " ++ k ++ "\n", "root", 0o644⟩)) := by
  refine ⟨?_, ?_, ?_⟩
  · unfold Create
    rw [if_pos rfl]
  · intro h1 h2
    have h2e : userExists (EnsureGroups s) u = true := by
      rw [userExists_congr (EnsureGroups_passwd s)]
      exact h2
    have hrun := Create_update_password s u p k h1 h2e
    rw [hrun]
    refine ⟨rfl, ?_, ?_, ?_, ?_⟩
    · show u ∉ getGroupMembers (usermodAddGroup u GroupPasswordAuth
        (gpasswdRemove u GroupKeyAuth (gpasswdRemove u GroupPasswordAuth
          (EnsureGroups s)))) GroupKeyAuth
      intro hc
      rcases (mem_getGroupMembers_usermodAddGroup u GroupPasswordAuth u GroupKeyAuth _).mp hc
        with hc2 | ⟨hgg, _, _⟩
      · rw [getGroupMembers_gpasswdRemove, if_pos rfl] at hc2
        have := (List.mem_filter.mp hc2).2
        simp at this
      · exact absurd hgg (by decide)
    · show isInGroup (usermodAddGroup u GroupPasswordAuth (gpasswdRemove u GroupKeyAuth
        (gpasswdRemove u GroupPasswordAuth (EnsureGroups s)))) u GroupPasswordAuth = true
      rw [isInGroup_usermodAddGroup]
      rw [if_pos ⟨rfl, rfl, by
        rw [isSome_lookupGroup_gpasswdRemove, isSome_lookupGroup_gpasswdRemove]
        exact (lookupGroup_EnsureGroups_isSome s).1⟩]
    · show lookupUser (EnsureGroups s) u = lookupUser s u
      exact lookupUser_congr (EnsureGroups_passwd s) u
    · show ((((u, p) :: (usermodAddGroup u GroupPasswordAuth (gpasswdRemove u GroupKeyAuth
        (gpasswdRemove u GroupPasswordAuth (EnsureGroups s)))).shadow.filter
          (fun e => e.1 ≠ u)).find? (fun e => e.1 = u)).map Prod.snd) = some p
      rw [List.find?_cons_of_pos _ (by simp)]
      rfl
  · intro h1 h2 hv
    have h2e : userExists (EnsureGroups s) u = true := by
      rw [userExists_congr (EnsureGroups_passwd s)]
      exact h2
    have hrun := Create_update_key s u p k h1 h2e hv
    rw [hrun]
    have hsetup : (SetupSSHKey u k (usermodAddGroup u GroupKeyAuth
        (gpasswdRemove u GroupKeyAuth (gpasswdRemove u GroupPasswordAuth
          (EnsureGroups s))))).1
      = { usermodAddGroup u GroupKeyAuth (gpasswdRemove u GroupKeyAuth
            (gpasswdRemove u GroupPasswordAuth (EnsureGroups s))) with
          keyFiles := setKeyFile u
            (KeyFile.mk ("restrict,port-forwarding " ++ k ++ "\n") "root" 0o644)
            (usermodAddGroup u GroupKeyAuth (gpasswdRemove u GroupKeyAuth
              (gpasswdRemove u GroupPasswordAuth (EnsureGroups s)))).keyFiles } := by
      unfold SetupSSHKey
      rw [if_pos hv]
    refine ⟨rfl, ?_, ?_, ?_⟩
    · show u ∉ getGroupMembers (SetupSSHKey u k (usermodAddGroup u GroupKeyAuth
        (gpasswdRemove u GroupKeyAuth (gpasswdRemove u GroupPasswordAuth
          (EnsureGroups s))))).1 GroupPasswordAuth
      rw [hsetup]
      show u ∉ getGroupMembers (usermodAddGroup u GroupKeyAuth (gpasswdRemove u GroupKeyAuth
        (gpasswdRemove u GroupPasswordAuth (EnsureGroups s)))) GroupPasswordAuth
      intro hc
      rcases (mem_getGroupMembers_usermodAddGroup u GroupKeyAuth u GroupPasswordAuth _).mp hc
        with hc2 | ⟨hgg, _, _⟩
      · rw [getGroupMembers_gpasswdRemove, if_neg (by decide),
          getGroupMembers_gpasswdRemove, if_pos rfl] at hc2
        have := (List.mem_filter.mp hc2).2
        simp at this
      · exact absurd hgg (by decide)
    · show isInGroup (SetupSSHKey u k (usermodAddGroup u GroupKeyAuth
        (gpasswdRemove u GroupKeyAuth (gpasswdRemove u GroupPasswordAuth
          (EnsureGroups s))))).1 u GroupKeyAuth = true
      rw [hsetup]
      show isInGroup (usermodAddGroup u GroupKeyAuth (gpasswdRemove u GroupKeyAuth
        (gpasswdRemove u GroupPasswordAuth (EnsureGroups s)))) u GroupKeyAuth = true
      rw [isInGroup_usermodAddGroup]
      rw [if_pos ⟨rfl, rfl, by
        rw [isSome_lookupGroup_gpasswdRemove, isSome_lookupGroup_gpasswdRemove]
        exact (lookupGroup_EnsureGroups_isSome s).2⟩]
    · show lookupKeyFile (SetupSSHKey u k (usermodAddGroup u GroupKeyAuth
        (gpasswdRemove u GroupKeyAuth (gpasswdRemove u GroupPasswordAuth
          (EnsureGroups s))))).1 u = _
      rw [hsetup]
      show ((setKeyFile u (KeyFile.mk ("restrict,port-forwarding " ++ k ++ "\n") "root" 0o644)
        _).find? (fun e => e.1 = u)).map Prod.snd = _
      rw [lookupKeyFile_setKeyFile_self]
      rfl

/-- C7 counterexample: Create("bob", key) followed by Create("bob", password)
— an update — succeeds, but bob is still a member of the key group (it is his
primary group, which gpasswd -d does not touch), contradicting the claim that
the update removes the user from both tunnel groups before adding the target
group. -/
theorem c7_counterexample :
    userExists (Create ⟨"bob", AuthMode.key, "", "ssh-ed25519 BBBB"⟩ initState).1 "bob" = true ∧
    (Create ⟨"bob", AuthMode.password, "pw", ""⟩
      (Create ⟨"bob", AuthMode.key, "", "ssh-ed25519 BBBB"⟩ initState).1).2 = none ∧
    isInGroup (Create ⟨"bob", AuthMode.password, "pw", ""⟩
      (Create ⟨"bob", AuthMode.key, "", "ssh-ed25519 BBBB"⟩ initState).1).1
      "bob" GroupKeyAuth = true := by
  refine ⟨by decide, by decide, by decide⟩

/-- C7 witness: the amended theorem applied at a concrete state holding the
existing user "carol" (primary group outside the tunnel groups). -/
theorem c7_witness :
    (Create ⟨"", AuthMode.password, "p", ""⟩
        ⟨[⟨"carol", 50⟩], [], [], [], none, none, 1000⟩
      = (⟨[⟨"carol", 50⟩], [], [], [], none, none, 1000⟩, some "username is required")) ∧
    ((Create ⟨"carol", AuthMode.password, "p", ""⟩
        ⟨[⟨"carol", 50⟩], [], [], [], none, none, 1000⟩).2 = none ∧
     "carol" ∉ getGroupMembers (Create ⟨"carol", AuthMode.password, "p", ""⟩
        ⟨[⟨"carol", 50⟩], [], [], [], none, none, 1000⟩).1 GroupKeyAuth ∧
     isInGroup (Create ⟨"carol", AuthMode.password, "p", ""⟩
        ⟨[⟨"carol", 50⟩], [], [], [], none, none, 1000⟩).1 "carol" GroupPasswordAuth = true ∧
     lookupUser (Create ⟨"carol", AuthMode.password, "p", ""⟩
        ⟨[⟨"carol", 50⟩], [], [], [], none, none, 1000⟩).1 "carol"
       = lookupUser ⟨[⟨"carol", 50⟩], [], [], [], none, none, 1000⟩ "carol" ∧
     lookupShadow (Create ⟨"carol", AuthMode.password, "p", ""⟩
        ⟨[⟨"carol", 50⟩], [], [], [], none, none, 1000⟩).1 "carol" = some "p") :=
  ⟨(c7_create_empty_and_update ⟨[⟨"carol", 50⟩], [], [], [], none, none, 1000⟩
      "carol" "p" "" AuthMode.password).1,
   (c7_create_empty_and_update ⟨[⟨"carol", 50⟩], [], [], [], none, none, 1000⟩
      "carol" "p" "" AuthMode.password).2.1 (by decide) (by decide)⟩

/-! Well-formedness preservation for the state mutators. -/

theorem WF_congr {s t : SysState} (hp : t.passwd = s.passwd) (hg : t.groups = s.groups)
    (hn : t.nextGid = s.nextGid) (h : WF s) : WF t := by
  obtain ⟨w1, w2, w3, w4, w5, w6⟩ := h
  refine ⟨?_, ?_, ?_, ?_, ?_, ?_⟩
  · rw [hg]; exact w1
  · rw [hg]; exact w2
  · rw [hg, hn]; exact w3
  · rw [hp]; exact w4
  · rw [hp, hn]; exact w5
  · rw [hg]
    intro g hgmem m hm
    rw [userExists_congr hp]
    exact w6 g hgmem m hm

theorem map_name_of_preserve {f : Group → Group} (hname : ∀ grp, (f grp).name = grp.name)
    (l : List Group) : (l.map f).map Group.name = l.map Group.name := by
  rw [List.map_map]
  exact List.map_congr_left (fun g _ => hname g)

theorem map_gid_of_preserve {f : Group → Group} (hgid : ∀ grp, (f grp).gid = grp.gid)
    (l : List Group) : (l.map f).map Group.gid = l.map Group.gid := by
  rw [List.map_map]
  exact List.map_congr_left (fun g _ => hgid g)

theorem lookupUser_eq_none_iff {s : SysState} {u : String} :
    lookupUser s u = none ↔ ∀ e ∈ s.passwd, ¬(e.name = u) := by
  unfold lookupUser
  rw [List.find?_eq_none]
  constructor
  · intro h e he
    simpa using h e he
  · intro h e he
    simpa using h e he

theorem lookupGroup_eq_none_iff {s : SysState} {g : String} :
    lookupGroup s g = none ↔ ∀ grp ∈ s.groups, ¬(grp.name = g) := by
  unfold lookupGroup
  rw [List.find?_eq_none]
  constructor
  · intro h e he
    simpa using h e he
  · intro h e he
    simpa using h e he

theorem userExists_eq_false_iff {s : SysState} {u : String} :
    userExists s u = false ↔ lookupUser s u = none := by
  unfold userExists
  cases lookupUser s u <;> simp

theorem WF_gpasswdRemove (v g : String) {s : SysState} (h : WF s) :
    WF (gpasswdRemove v g s) := by
  obtain ⟨w1, w2, w3, w4, w5, w6⟩ := h
  refine ⟨?_, ?_, ?_, w4, w5, ?_⟩
  · show ((s.groups.map _).map Group.name).Nodup
    rw [map_name_of_preserve (gpasswdRemove_name v g)]
    exact w1
  · show ((s.groups.map _).map Group.gid).Nodup
    rw [map_gid_of_preserve (gpasswdRemove_gid v g)]
    exact w2
  · intro grp' hmem
    rcases List.mem_map.mp hmem with ⟨grp, hgrp, rfl⟩
    rw [gpasswdRemove_gid]
    exact w3 grp hgrp
  · intro grp' hmem m hm
    rcases List.mem_map.mp hmem with ⟨grp, hgrp, rfl⟩
    have hm2 : m ∈ grp.members := by
      by_cases hc : grp.name = g
      · rw [if_pos hc] at hm
        exact (List.mem_filter.mp hm).1
      · rw [if_neg hc] at hm
        exact hm
    show userExists s m = true
    exact w6 grp hgrp m hm2

theorem WF_usermodAddGroup (v g : String) {s : SysState}
    (hv : userExists s v = true) (h : WF s) : WF (usermodAddGroup v g s) := by
  obtain ⟨w1, w2, w3, w4, w5, w6⟩ := h
  refine ⟨?_, ?_, ?_, w4, w5, ?_⟩
  · show ((s.groups.map _).map Group.name).Nodup
    rw [map_name_of_preserve (usermodAddGroup_name v g)]
    exact w1
  · show ((s.groups.map _).map Group.gid).Nodup
    rw [map_gid_of_preserve (usermodAddGroup_gid v g)]
    exact w2
  · intro grp' hmem
    rcases List.mem_map.mp hmem with ⟨grp, hgrp, rfl⟩
    rw [usermodAddGroup_gid]
    exact w3 grp hgrp
  · intro grp' hmem m hm
    rcases List.mem_map.mp hmem with ⟨grp, hgrp, rfl⟩
    have hm2 : m ∈ grp.members ∨ m = v := by
      by_cases hc : grp.name = g ∧ v ∉ grp.members
      · rw [if_pos hc] at hm
        rcases List.mem_append.mp hm with hm | hm
        · exact Or.inl hm
        · exact Or.inr (List.mem_singleton.mp hm)
      · rw [if_neg hc] at hm
        exact Or.inl hm
    show userExists s m = true
    rcases hm2 with hm2 | rfl
    · exact w6 grp hgrp m hm2
    · exact hv

theorem WF_userdel (v : String) {s : SysState} (h : WF s) : WF (userdel v s) := by
  obtain ⟨w1, w2, w3, w4, w5, w6⟩ := h
  refine ⟨?_, ?_, ?_, ?_, ?_, ?_⟩
  · show ((s.groups.map _).map Group.name).Nodup
    rw [map_name_of_preserve (fun grp => userdel_name v grp)]
    exact w1
  · show ((s.groups.map _).map Group.gid).Nodup
    rw [map_gid_of_preserve (fun grp => userdel_gid v grp)]
    exact w2
  · intro grp' hmem
    rcases List.mem_map.mp hmem with ⟨grp, hgrp, rfl⟩
    exact w3 grp hgrp
  · show ((s.passwd.filter _).map PasswdEntry.name).Nodup
    exact ((List.filter_sublist s.passwd).map PasswdEntry.name).nodup w4
  · intro e he
    exact w5 e (List.mem_of_mem_filter he)
  · intro grp' hmem m hm
    rcases List.mem_map.mp hmem with ⟨grp, hgrp, rfl⟩
    have hm2 := List.mem_filter.mp hm
    have hmne : ¬(m = v) := by simpa using hm2.2
    show userExists (userdel v s) m = true
    rw [userExists_userdel, if_neg hmne]
    exact w6 grp hgrp m hm2.1

theorem WF_useradd (v : String) (gid : Nat) {s : SysState}
    (hnot : userExists s v = false) (hbound : gid < s.nextGid) (h : WF s) :
    WF (useradd v gid s) := by
  obtain ⟨w1, w2, w3, w4, w5, w6⟩ := h
  refine ⟨w1, w2, w3, ?_, ?_, ?_⟩
  · show ((s.passwd ++ [PasswdEntry.mk v gid]).map PasswdEntry.name).Nodup
    rw [List.map_append]
    refine List.Nodup.append w4 (by simp) ?_
    intro x hx hx2
    rcases List.mem_map.mp hx with ⟨e, he, rfl⟩
    simp only [List.map_cons, List.map_nil, List.mem_singleton] at hx2
    have := lookupUser_eq_none_iff.mp (userExists_eq_false_iff.mp hnot) e he
    exact this hx2
  · intro e he
    rcases List.mem_append.mp he with he | he
    · exact w5 e he
    · rw [List.mem_singleton] at he
      subst he
      exact hbound
  · intro grp hgrp m hm
    have := w6 grp hgrp m hm
    show userExists (useradd v gid s) m = true
    unfold userExists at this ⊢
    rw [lookupUser_useradd]
    rcases Option.isSome_iff_exists.mp this with ⟨e, he⟩
    rw [he]
    rfl

theorem WF_groupadd (g : String) {s : SysState}
    (hnew : lookupGroup s g = none) (h : WF s) : WF (groupadd g s) := by
  obtain ⟨w1, w2, w3, w4, w5, w6⟩ := h
  refine ⟨?_, ?_, ?_, w4, ?_, ?_⟩
  · show ((s.groups ++ [Group.mk g s.nextGid []]).map Group.name).Nodup
    rw [List.map_append]
    refine List.Nodup.append w1 (by simp) ?_
    intro x hx hx2
    rcases List.mem_map.mp hx with ⟨grp, hgrp, rfl⟩
    simp only [List.map_cons, List.map_nil, List.mem_singleton] at hx2
    exact lookupGroup_eq_none_iff.mp hnew grp hgrp hx2
  · show ((s.groups ++ [Group.mk g s.nextGid []]).map Group.gid).Nodup
    rw [List.map_append]
    refine List.Nodup.append w2 (by simp) ?_
    intro x hx hx2
    rcases List.mem_map.mp hx with ⟨grp, hgrp, rfl⟩
    simp only [List.map_cons, List.map_nil, List.mem_singleton] at hx2
    exact absurd (hx2 ▸ w3 grp hgrp) (lt_irrefl s.nextGid)
  · intro grp hgrp
    rcases List.mem_append.mp hgrp with hg2 | hg2
    · exact Nat.lt_succ_of_lt (w3 grp hg2)
    · rw [List.mem_singleton] at hg2
      subst hg2
      exact Nat.lt_succ_self s.nextGid
  · intro e he
    exact Nat.lt_succ_of_lt (w5 e he)
  · intro grp hgrp m hm
    rcases List.mem_append.mp hgrp with hg2 | hg2
    · exact w6 grp hg2 m hm
    · rw [List.mem_singleton] at hg2
      subst hg2
      cases hm

theorem WF_ensureGroup (g : String) {s : SysState} (h : WF s) : WF (ensureGroup g s) := by
  unfold ensureGroup
  split
  · exact h
  · rename_i hc
    exact WF_groupadd g (Option.not_isSome_iff_eq_none.mp hc) h

theorem WF_EnsureGroups {s : SysState} (h : WF s) : WF (EnsureGroups s) :=
  WF_ensureGroup GroupKeyAuth (WF_ensureGroup GroupPasswordAuth h)

theorem WF_groupdel (g : String) {s : SysState} (h : WF s) : WF (groupdel g s) := by
  obtain ⟨w1, w2, w3, w4, w5, w6⟩ := h
  refine ⟨?_, ?_, ?_, w4, w5, ?_⟩
  · show ((s.groups.filter _).map Group.name).Nodup
    exact ((List.filter_sublist s.groups).map Group.name).nodup w1
  · show ((s.groups.filter _).map Group.gid).Nodup
    exact ((List.filter_sublist s.groups).map Group.gid).nodup w2
  · intro grp hgrp
    exact w3 grp (List.mem_of_mem_filter hgrp)
  · intro grp hgrp m hm
    show userExists s m = true
    exact w6 grp (List.mem_of_mem_filter hgrp) m hm

/-- find? of a passwd entry by name through a name-preserving rewrite. -/
theorem find?_map_pname {f : PasswdEntry → PasswdEntry}
    (hname : ∀ e, (f e).name = e.name) (l : List PasswdEntry) (u : String) :
    (l.map f).find? (fun e => e.name = u) = (l.find? (fun e => e.name = u)).map f := by
  have hfun : ((fun e : PasswdEntry => decide (e.name = u)) ∘ f) =
      (fun e : PasswdEntry => decide (e.name = u)) := by
    funext e
    simp [Function.comp, hname]
  rw [List.find?_map, hfun]

theorem WF_mapPasswd {s : SysState} {f : PasswdEntry → PasswdEntry}
    (hname : ∀ e, (f e).name = e.name)
    (hgid : ∀ e ∈ s.passwd, (f e).gid < s.nextGid) (h : WF s) :
    WF { s with passwd := s.passwd.map f } := by
  obtain ⟨w1, w2, w3, w4, w5, w6⟩ := h
  refine ⟨w1, w2, w3, ?_, ?_, ?_⟩
  · show ((s.passwd.map f).map PasswdEntry.name).Nodup
    rw [List.map_map]
    rw [show (PasswdEntry.name ∘ f) = PasswdEntry.name from funext (fun e => hname e)]
    exact w4
  · intro e' he'
    rcases List.mem_map.mp he' with ⟨e, he, rfl⟩
    exact hgid e he
  · intro grp hgrp m hm
    have := w6 grp hgrp m hm
    show userExists { s with passwd := s.passwd.map f } m = true
    unfold userExists lookupUser at this ⊢
    show ((s.passwd.map f).find? (fun e => e.name = m)).isSome = true
    rw [find?_map_pname hname]
    cases hfind : s.passwd.find? (fun e => e.name = m) with
    | none => rw [hfind] at this; cases this
    | some e => rfl

theorem userExists_mapPasswd {s : SysState} {f : PasswdEntry → PasswdEntry}
    (hname : ∀ e, (f e).name = e.name) (u : String) :
    userExists { s with passwd := s.passwd.map f } u = userExists s u := by
  unfold userExists lookupUser
  show ((s.passwd.map f).find? (fun e => e.name = u)).isSome = _
  rw [find?_map_pname hname]
  cases s.passwd.find? (fun e => decide (e.name = u)) <;> rfl

theorem WF_SetupSSHKey_fst (u k : String) {s : SysState} (h : WF s) :
    WF (SetupSSHKey u k s).1 := by
  unfold SetupSSHKey
  split
  · exact WF_congr rfl rfl rfl h
  · exact h

theorem userExists_of_isTunnelUser {s : SysState} (hWF : WF s) {u : String}
    (ht : IsTunnelUser s u = true) : userExists s u = true := by
  unfold IsTunnelUser GetAuthMode at ht
  have hin : isInGroup s u GroupPasswordAuth = true ∨ isInGroup s u GroupKeyAuth = true := by
    by_cases h1 : isInGroup s u GroupPasswordAuth = true
    · exact Or.inl h1
    · rw [if_neg h1] at ht
      by_cases h2 : isInGroup s u GroupKeyAuth = true
      · exact Or.inr h2
      · rw [if_neg h2] at ht
        cases ht
  have : memberOf s u GroupPasswordAuth ∨ memberOf s u GroupKeyAuth := by
    rcases hin with h1 | h1
    · exact Or.inl ((isInGroup_iff_memberOf s u _).mp h1)
    · exact Or.inr ((isInGroup_iff_memberOf s u _).mp h1)
  obtain ⟨_, _, _, _, _, w6⟩ := hWF
  rcases this with hmem | hmem <;>
    (rcases hmem with hsupp | ⟨e, grp, he, hg, _⟩)
  · rcases hg : lookupGroup s GroupPasswordAuth with _ | grp
    · rw [getGroupMembers_eq_nil hg] at hsupp
      cases hsupp
    · rw [getGroupMembers_eq_members hg] at hsupp
      exact w6 grp (lookupGroup_mem hg) u hsupp
  · unfold userExists
    rw [he]
    rfl
  · rcases hg : lookupGroup s GroupKeyAuth with _ | grp
    · rw [getGroupMembers_eq_nil hg] at hsupp
      cases hsupp
    · rw [getGroupMembers_eq_members hg] at hsupp
      exact w6 grp (lookupGroup_mem hg) u hsupp
  · unfold userExists
    rw [he]
    rfl

theorem WF_Create (cfg : Config) {s : SysState} (h : WF s) : WF (Create cfg s).1 := by
  have h1 : WF (EnsureGroups s) := WF_EnsureGroups h
  unfold Create
  by_cases h0 : cfg.username = ""
  · rw [if_pos h0]
    exact h
  · rw [if_neg h0]
    simp only []
    have hWFs2e : WF (if userExists (EnsureGroups s) cfg.username then
        (usermodAddGroup cfg.username (targetGroupName cfg.authMode)
          (gpasswdRemove cfg.username GroupKeyAuth
            (gpasswdRemove cfg.username GroupPasswordAuth (EnsureGroups s))), none)
      else
        match lookupGroup (EnsureGroups s) (targetGroupName cfg.authMode) with
        | some grp => (useradd cfg.username grp.gid (EnsureGroups s), none)
        | none => (EnsureGroups s, some "failed to create user")).1 := by
      split
      · rename_i hex
        refine WF_usermodAddGroup cfg.username (targetGroupName cfg.authMode) ?_
          (WF_gpasswdRemove _ _ (WF_gpasswdRemove _ _ h1))
        show userExists (EnsureGroups s) cfg.username = true
        exact hex
      · rename_i hnex
        cases hgrp : lookupGroup (EnsureGroups s) (targetGroupName cfg.authMode) with
        | none => exact h1
        | some grp =>
          refine WF_useradd cfg.username grp.gid ?_ ?_ h1
          · cases hval : userExists (EnsureGroups s) cfg.username
            · rfl
            · exact absurd hval hnex
          · exact h1.2.2.1 grp (lookupGroup_mem hgrp)
    split
    · exact hWFs2e
    · split
      · split
        · exact WF_SetupSSHKey_fst _ _ hWFs2e
        · exact WF_congr rfl rfl rfl hWFs2e
      · split
        · exact WF_congr rfl rfl rfl (WF_SetupSSHKey_fst _ _ hWFs2e)
        · exact WF_congr rfl rfl rfl (WF_congr rfl rfl rfl hWFs2e)

theorem WF_Delete (u : String) {s : SysState} (h : WF s) : WF (Delete u s).1 := by
  unfold Delete
  split
  · exact h
  · exact WF_congr rfl rfl rfl
      (WF_userdel u (WF_gpasswdRemove _ _ (WF_gpasswdRemove _ _ h)))

theorem WF_switchPrimaryGid (u : String) (tgid : Nat) (tunnelGid : Nat → Bool)
    {s : SysState} (hbound : tgid < s.nextGid) (h : WF s) :
    WF (switchPrimaryGid u tgid tunnelGid s) := by
  refine WF_mapPasswd ?_ ?_ h
  · intro e
    split <;> rfl
  · intro e he
    split
    · exact hbound
    · exact h.2.2.2.2.1 e he

theorem userExists_switchPrimaryGid (u : String) (tgid : Nat) (tunnelGid : Nat → Bool)
    (s : SysState) (v : String) :
    userExists (switchPrimaryGid u tgid tunnelGid s) v = userExists s v := by
  unfold switchPrimaryGid
  rw [userExists_mapPasswd (by intro e; split <;> rfl)]

theorem WF_SwitchAuthMode (u : String) (m : AuthMode) {s : SysState} (h : WF s) :
    WF (SwitchAuthMode u m s).1 := by
  unfold SwitchAuthMode
  split
  · exact h
  · rename_i ht
    cases htg : lookupGroup s (targetGroupName m) with
    | none => exact h
    | some tg =>
      have h1 : WF (gpasswdRemove u GroupKeyAuth (gpasswdRemove u GroupPasswordAuth s)) :=
        WF_gpasswdRemove _ _ (WF_gpasswdRemove _ _ h)
      have h2 : WF (switchPrimaryGid u tg.gid (isTunnelGidIn s)
          (gpasswdRemove u GroupKeyAuth (gpasswdRemove u GroupPasswordAuth s))) :=
        WF_switchPrimaryGid u tg.gid (isTunnelGidIn s)
          (h.2.2.1 tg (lookupGroup_mem htg)) h1
      refine WF_usermodAddGroup u (targetGroupName m) ?_ h2
      have htu : IsTunnelUser s u = true := by
        by_cases hc : IsTunnelUser s u = true
        · exact hc
        · exact absurd hc (by simpa using ht)
      have hex : userExists s u = true := userExists_of_isTunnelUser h htu
      rw [userExists_switchPrimaryGid]
      exact hex

/-! Teardown facts (claim C8). -/

theorem groupHasAny_eq_false_iff (s : SysState) (g : String) :
    groupHasAny s g = false ↔
      getGroupMembers s g = [] ∧ (getUsersWithPrimaryGroup s g).getD [] = [] := by
  unfold groupHasAny
  cases h : getUsersWithPrimaryGroup s g with
  | none => simp [List.isEmpty_iff]
  | some l => simp [List.isEmpty_iff]

theorem groupsHaveUsers_eq_false_iff (s : SysState) :
    GroupsHaveUsers s = false ↔ tunnelNames s = [] := by
  unfold GroupsHaveUsers tunnelNames passwordNames keyNames
  rw [Bool.or_eq_false_iff, groupHasAny_eq_false_iff, groupHasAny_eq_false_iff]
  simp only [List.append_eq_nil]
  try tauto

theorem mem_primD_iff (s : SysState) (g x : String) :
    x ∈ (getUsersWithPrimaryGroup s g).getD [] ↔
      ∃ grp, lookupGroup s g = some grp ∧ ∃ e ∈ s.passwd, e.gid = grp.gid ∧ e.name = x := by
  unfold getUsersWithPrimaryGroup
  cases h : lookupGroup s g with
  | none =>
    simp only [Option.getD_none]
    constructor
    · intro hx; cases hx
    · rintro ⟨grp, hgg, _⟩; cases hgg
  | some grp =>
    simp only [Option.getD_some]
    constructor
    · intro hx
      rcases List.mem_map.mp hx with ⟨e, hef, rfl⟩
      have := List.mem_filter.mp hef
      exact ⟨grp, rfl, e, this.1, by simpa using this.2, rfl⟩
    · rintro ⟨grp', hgg, e, he, hgid, rfl⟩
      cases hgg
      exact List.mem_map.mpr ⟨e, List.mem_filter.mpr ⟨he, by simpa using hgid⟩, rfl⟩

theorem tunnelNames_covered (s : SysState) :
    ∀ u ∈ tunnelNames s, u ∈ (listUsers s).map UserInfo.username := by
  intro u hu
  rcases List.mem_append.mp hu with hp | hk
  · exact List.mem_map.mpr ⟨⟨u, AuthMode.password⟩, (listUsers_mem_password s u).mpr hp, rfl⟩
  · by_cases hp : u ∈ passwordNames s
    · exact List.mem_map.mpr ⟨⟨u, AuthMode.password⟩, (listUsers_mem_password s u).mpr hp, rfl⟩
    · exact List.mem_map.mpr ⟨⟨u, AuthMode.key⟩, (listUsers_mem_key s u).mpr ⟨hk, hp⟩, rfl⟩

theorem find?_eq_some_of_mem_nodup {l : List PasswdEntry}
    (hnd : (l.map PasswdEntry.name).Nodup) {e : PasswdEntry} (he : e ∈ l) :
    l.find? (fun x => x.name = e.name) = some e := by
  induction l with
  | nil => cases he
  | cons x rest ih =>
    simp only [List.map_cons, List.nodup_cons] at hnd
    rcases List.mem_cons.mp he with rfl | he
    · rw [List.find?_cons_of_pos _ (by simp)]
    · have hne : ¬(x.name = e.name) := by
        intro hc
        exact hnd.1 (hc ▸ List.mem_map.mpr ⟨e, he, rfl⟩)
      rw [List.find?_cons_of_neg _ (by simpa using hne)]
      exact ih hnd.2 he

theorem isInGroup_either_isTunnelUser {s : SysState} {u : String}
    (h : isInGroup s u GroupPasswordAuth = true ∨ isInGroup s u GroupKeyAuth = true) :
    IsTunnelUser s u = true := by
  unfold IsTunnelUser GetAuthMode
  rcases h with h | h
  · rw [if_pos h]
    rfl
  · by_cases h1 : isInGroup s u GroupPasswordAuth = true
    · rw [if_pos h1]
      rfl
    · rw [if_neg h1, if_pos h]
      rfl

theorem isTunnelUser_of_mem_tunnelNames {s : SysState} (hWF : WF s) {u : String}
    (hu : u ∈ tunnelNames s) : IsTunnelUser s u = true := by
  have hcase : (u ∈ getGroupMembers s GroupPasswordAuth ∨
      u ∈ (getUsersWithPrimaryGroup s GroupPasswordAuth).getD []) ∨
      (u ∈ getGroupMembers s GroupKeyAuth ∨
      u ∈ (getUsersWithPrimaryGroup s GroupKeyAuth).getD []) := by
    rcases List.mem_append.mp hu with hp | hk
    · exact Or.inl (List.mem_append.mp hp)
    · exact Or.inr (List.mem_append.mp hk)
  refine isInGroup_either_isTunnelUser ?_
  have hprim : ∀ g, u ∈ (getUsersWithPrimaryGroup s g).getD [] → isInGroup s u g = true := by
    intro g hg
    rcases (mem_primD_iff s g u).mp hg with ⟨grp, hgg, e, he, hgid, hname⟩
    rw [isInGroup_eq_true_iff]
    refine Or.inr ((primaryInGroup_iff s u g).mpr ⟨e, grp, ?_, hgg, hgid⟩)
    unfold lookupUser
    rw [← hname]
    exact find?_eq_some_of_mem_nodup hWF.2.2.2.1 he
  have hsupp : ∀ g, u ∈ getGroupMembers s g → isInGroup s u g = true := by
    intro g hg
    rw [isInGroup_eq_true_iff]
    exact Or.inl hg
  rcases hcase with (h1 | h1) | h1
  · exact Or.inl (hsupp _ h1)
  · exact Or.inl (hprim _ h1)
  · rcases h1 with h1 | h1
    · exact Or.inr (hsupp _ h1)
    · exact Or.inr (hprim _ h1)

theorem Delete_run {s : SysState} {u : String} (ht : IsTunnelUser s u = true) :
    Delete u s = (deleteState u s, none) := by
  unfold Delete
  rw [if_neg (by simpa using ht)]

theorem Delete_noop {s : SysState} {u : String} (ht : ¬(IsTunnelUser s u = true)) :
    Delete u s = (s, some "user is not a tunnel user") := by
  unfold Delete
  rw [if_pos (by simpa using ht)]

theorem mem_getGroupMembers_gpasswdRemove_sub {x v g0 g : String} {s : SysState}
    (h : x ∈ getGroupMembers (gpasswdRemove v g0 s) g) : x ∈ getGroupMembers s g := by
  rw [getGroupMembers_gpasswdRemove] at h
  by_cases hc : g = g0
  · rw [if_pos hc] at h
    exact (List.mem_filter.mp h).1
  · rwa [if_neg hc] at h

theorem mem_getGroupMembers_deleteState {x u g : String} {s : SysState}
    (h : x ∈ getGroupMembers (deleteState u s) g) :
    x ∈ getGroupMembers s g ∧ ¬(x = u) := by
  have h2 : x ∈ getGroupMembers (userdel u (gpasswdRemove u GroupKeyAuth
      (gpasswdRemove u GroupPasswordAuth s))) g := h
  rw [getGroupMembers_userdel] at h2
  have h3 := List.mem_filter.mp h2
  exact ⟨mem_getGroupMembers_gpasswdRemove_sub (mem_getGroupMembers_gpasswdRemove_sub h3.1),
    by simpa using h3.2⟩

theorem mem_primD_deleteState {x u g : String} {s : SysState}
    (h : x ∈ (getUsersWithPrimaryGroup (deleteState u s) g).getD []) :
    x ∈ (getUsersWithPrimaryGroup s g).getD [] ∧ ¬(x = u) := by
  rcases (mem_primD_iff _ g x).mp h with ⟨grp', hgg', e, he, hgid, hname⟩
  have hgg2 : lookupGroup (userdel u (gpasswdRemove u GroupKeyAuth
      (gpasswdRemove u GroupPasswordAuth s))) g = some grp' := hgg'
  rw [lookupGroup_userdel, lookupGroup_gpasswdRemove, lookupGroup_gpasswdRemove] at hgg2
  cases hgg : lookupGroup s g with
  | none =>
    rw [hgg] at hgg2
    cases hgg2
  | some grp =>
    rw [hgg] at hgg2
    simp only [Option.map_some'] at hgg2
    have hgid2 : grp'.gid = grp.gid := by
      rw [← Option.some_inj.mp hgg2, userdel_gid, gpasswdRemove_gid, gpasswdRemove_gid]
    have he2 : e ∈ s.passwd.filter (fun e => e.name ≠ u) := he
    have he3 := List.mem_filter.mp he2
    have hneu : ¬(e.name = u) := by simpa using he3.2
    refine ⟨(mem_primD_iff s g x).mpr ⟨grp, hgg, e, he3.1, by rw [hgid, hgid2], hname⟩, ?_⟩
    rw [← hname]
    exact hneu

theorem mem_tunnelNames_deleteState {x u : String} {s : SysState}
    (h : x ∈ tunnelNames (deleteState u s)) : x ∈ tunnelNames s ∧ ¬(x = u) := by
  unfold tunnelNames passwordNames keyNames at h ⊢
  rcases List.mem_append.mp h with h1 | h1
  · rcases List.mem_append.mp h1 with h2 | h2
    · rcases mem_getGroupMembers_deleteState h2 with ⟨hm, hne⟩
      exact ⟨List.mem_append.mpr (Or.inl (List.mem_append.mpr (Or.inl hm))), hne⟩
    · rcases mem_primD_deleteState h2 with ⟨hm, hne⟩
      exact ⟨List.mem_append.mpr (Or.inl (List.mem_append.mpr (Or.inr hm))), hne⟩
  · rcases List.mem_append.mp h1 with h2 | h2
    · rcases mem_getGroupMembers_deleteState h2 with ⟨hm, hne⟩
      exact ⟨List.mem_append.mpr (Or.inr (List.mem_append.mpr (Or.inl hm))), hne⟩
    · rcases mem_primD_deleteState h2 with ⟨hm, hne⟩
      exact ⟨List.mem_append.mpr (Or.inr (List.mem_append.mpr (Or.inr hm))), hne⟩

theorem deleteUsersFold_groupsEmpty :
    ∀ (names : List String) (s : SysState) (del errs : List String), WF s →
    (∀ x ∈ tunnelNames s, x ∈ names) →
    GroupsHaveUsers (deleteUsersFold names s del errs).1 = false
  | [], s, del, errs, hWF, hsub => by
    simp only [deleteUsersFold]
    rw [groupsHaveUsers_eq_false_iff]
    refine List.eq_nil_iff_forall_not_mem.mpr (fun x hx => ?_)
    cases hsub x hx
  | u :: rest, s, del, errs, hWF, hsub => by
    simp only [deleteUsersFold]
    by_cases ht : IsTunnelUser s u = true
    · rw [Delete_run ht]
      have hWF2 : WF (deleteState u s) := by
        have := WF_Delete u hWF
        rw [Delete_run ht] at this
        exact this
      refine deleteUsersFold_groupsEmpty rest (deleteState u s) (del ++ [u]) errs hWF2 ?_
      intro x hx
      rcases mem_tunnelNames_deleteState hx with ⟨hm, hne⟩
      rcases List.mem_cons.mp (hsub x hm) with rfl | hr
      · exact absurd rfl hne
      · exact hr
    · rw [Delete_noop ht]
      refine deleteUsersFold_groupsEmpty rest s del
        (errs ++ [u ++ ": " ++ "user is not a tunnel user"]) hWF ?_
      intro x hx
      rcases List.mem_cons.mp (hsub x hx) with rfl | hr
      · exact absurd (isTunnelUser_of_mem_tunnelNames hWF hx) ht
      · exact hr

theorem DeleteAllUsers_fst (s : SysState) :
    (DeleteAllUsers s).1 = if (listUsers s).isEmpty then s
      else (deleteUsersFold ((listUsers s).map (fun e => e.username)) s [] []).1 := by
  have hdef : DeleteAllUsers s =
      (if (listUsers s).isEmpty then (s, [], none) else
        (if (deleteUsersFold ((listUsers s).map (fun e => e.username)) s [] []).2.2.isEmpty then
          ((deleteUsersFold ((listUsers s).map (fun e => e.username)) s [] []).1,
           (deleteUsersFold ((listUsers s).map (fun e => e.username)) s [] []).2.1, none)
        else
          ((deleteUsersFold ((listUsers s).map (fun e => e.username)) s [] []).1,
           (deleteUsersFold ((listUsers s).map (fun e => e.username)) s [] []).2.1,
           some "some users could not be deleted"))) := rfl
  rw [hdef]
  by_cases h : (listUsers s).isEmpty = true
  · rw [if_pos h, if_pos h]
  · rw [if_neg h, if_neg h]
    by_cases h2 : (deleteUsersFold ((listUsers s).map (fun e => e.username)) s [] []).2.2.isEmpty
      = true
    · rw [if_pos h2]
    · rw [if_neg h2]

theorem groupsHaveUsers_DeleteAllUsers {s : SysState} (hWF : WF s) :
    GroupsHaveUsers (DeleteAllUsers s).1 = false := by
  rw [DeleteAllUsers_fst]
  by_cases hempty : (listUsers s).isEmpty = true
  · rw [if_pos hempty, groupsHaveUsers_eq_false_iff]
    refine List.eq_nil_iff_forall_not_mem.mpr (fun x hx => ?_)
    have := tunnelNames_covered s x hx
    rw [List.isEmpty_iff.mp hempty] at this
    cases this
  · rw [if_neg hempty]
    exact deleteUsersFold_groupsEmpty _ s [] [] hWF (tunnelNames_covered s)

/-- C8: DeleteGroups fails with the precondition error — changing nothing —
whenever either tunnel group has a member of either kind; when both are
member-free it succeeds, deleting each tunnel group that exists and skipping
an absent one, and leaving the account database alone; and immediately after
DeleteAllUsers has completed (on a well-formed state) the groups are
member-free, so DeleteGroups succeeds. -/
theorem c8_deleteGroups_spec (s : SysState) (hWF : WF s) :
    (GroupsHaveUsers s = true →
      DeleteGroups s = (s, some "cannot delete groups: tunnel users still exist")) ∧
    (GroupsHaveUsers s = false →
      ((DeleteGroups s).2 = none ∧
       lookupGroup (DeleteGroups s).1 GroupPasswordAuth = none ∧
       lookupGroup (DeleteGroups s).1 GroupKeyAuth = none ∧
       (DeleteGroups s).1.passwd = s.passwd)) ∧
    (GroupsHaveUsers (DeleteAllUsers s).1 = false ∧
      (DeleteGroups (DeleteAllUsers s).1).2 = none) := by
  have hdel : ∀ t : SysState, GroupsHaveUsers t = false →
      DeleteGroups t = ((if (lookupGroup (if (lookupGroup t GroupPasswordAuth).isSome
          then groupdel GroupPasswordAuth t else t) GroupKeyAuth).isSome
        then groupdel GroupKeyAuth (if (lookupGroup t GroupPasswordAuth).isSome
          then groupdel GroupPasswordAuth t else t)
        else (if (lookupGroup t GroupPasswordAuth).isSome
          then groupdel GroupPasswordAuth t else t)), none) := by
    intro t h
    unfold DeleteGroups
    rw [if_neg (by simp [h])]
  refine ⟨?_, ?_, ?_⟩
  · intro h
    unfold DeleteGroups
    rw [if_pos h]
  · intro h
    have hfst : (DeleteGroups s).1 =
        (if (lookupGroup (if (lookupGroup s GroupPasswordAuth).isSome
            then groupdel GroupPasswordAuth s else s) GroupKeyAuth).isSome
          then groupdel GroupKeyAuth (if (lookupGroup s GroupPasswordAuth).isSome
            then groupdel GroupPasswordAuth s else s)
          else (if (lookupGroup s GroupPasswordAuth).isSome
            then groupdel GroupPasswordAuth s else s)) :=
      congrArg Prod.fst (hdel s h)
    have hsnd : (DeleteGroups s).2 = none := congrArg Prod.snd (hdel s h)
    have h1 : lookupGroup (if (lookupGroup s GroupPasswordAuth).isSome
        then groupdel GroupPasswordAuth s else s) GroupPasswordAuth = none := by
      by_cases hc : (lookupGroup s GroupPasswordAuth).isSome = true
      · rw [if_pos hc, lookupGroup_groupdel, if_pos rfl]
      · rw [if_neg hc]
        exact Option.not_isSome_iff_eq_none.mp hc
    refine ⟨hsnd, ?_, ?_, ?_⟩
    · rw [hfst]
      by_cases hc2 : (lookupGroup (if (lookupGroup s GroupPasswordAuth).isSome
          then groupdel GroupPasswordAuth s else s) GroupKeyAuth).isSome = true
      · rw [if_pos hc2, lookupGroup_groupdel,
          if_neg (show ¬(GroupPasswordAuth = GroupKeyAuth) from by decide)]
        exact h1
      · rw [if_neg hc2]
        exact h1
    · rw [hfst]
      by_cases hc2 : (lookupGroup (if (lookupGroup s GroupPasswordAuth).isSome
          then groupdel GroupPasswordAuth s else s) GroupKeyAuth).isSome = true
      · rw [if_pos hc2, lookupGroup_groupdel, if_pos rfl]
      · rw [if_neg hc2]
        exact Option.not_isSome_iff_eq_none.mp hc2
    · rw [hfst]
      by_cases hc : (lookupGroup s GroupPasswordAuth).isSome = true <;>
        by_cases hc2 : (lookupGroup (if (lookupGroup s GroupPasswordAuth).isSome
          then groupdel GroupPasswordAuth s else s) GroupKeyAuth).isSome = true
      · rw [if_pos hc2, if_pos hc]
        rfl
      · rw [if_neg hc2, if_pos hc]
        rfl
      · rw [if_pos hc2, if_neg hc]
        rfl
      · rw [if_neg hc2, if_neg hc]
  · have hGH := groupsHaveUsers_DeleteAllUsers hWF
    refine ⟨hGH, ?_⟩
    rw [hdel _ hGH]

/-- C8 witness: the theorem applied at a concrete state with one tunnel user
(primary group sshtunnel-password): DeleteGroups fails while the user exists
and succeeds after DeleteAllUsers. -/
theorem c8_witness :
    (DeleteGroups ⟨[⟨"alice", 1000⟩],
        [⟨GroupPasswordAuth, 1000, []⟩, ⟨GroupKeyAuth, 1001, []⟩],
        [], [], none, none, 1002⟩
      = (⟨[⟨"alice", 1000⟩],
          [⟨GroupPasswordAuth, 1000, []⟩, ⟨GroupKeyAuth, 1001, []⟩],
          [], [], none, none, 1002⟩, some "cannot delete groups: tunnel users still exist")) ∧
    (GroupsHaveUsers (DeleteAllUsers ⟨[⟨"alice", 1000⟩],
        [⟨GroupPasswordAuth, 1000, []⟩, ⟨GroupKeyAuth, 1001, []⟩],
        [], [], none, none, 1002⟩).1 = false ∧
      (DeleteGroups (DeleteAllUsers ⟨[⟨"alice", 1000⟩],
        [⟨GroupPasswordAuth, 1000, []⟩, ⟨GroupKeyAuth, 1001, []⟩],
        [], [], none, none, 1002⟩).1).2 = none) :=
  ⟨(c8_deleteGroups_spec ⟨[⟨"alice", 1000⟩],
      [⟨GroupPasswordAuth, 1000, []⟩, ⟨GroupKeyAuth, 1001, []⟩],
      [], [], none, none, 1002⟩ ⟨by decide, by decide, by decide, by decide, by decide,
        by decide⟩).1 (by decide),
   (c8_deleteGroups_spec ⟨[⟨"alice", 1000⟩],
      [⟨GroupPasswordAuth, 1000, []⟩, ⟨GroupKeyAuth, 1001, []⟩],
      [], [], none, none, 1002⟩ ⟨by decide, by decide, by decide, by decide, by decide,
        by decide⟩).2.2⟩

/-! Invariant preservation for the lifecycle operations (claim C1). -/

theorem isInGroup_groupadd {s : SysState} (g0 : String)
    (hgids : ∀ e ∈ s.passwd, e.gid < s.nextGid) (v g : String) :
    isInGroup (groupadd g0 s) v g = isInGroup s v g := by
  unfold isInGroup
  have hsupp : getGroupMembers (groupadd g0 s) g = getGroupMembers s g ∨
      (getGroupMembers (groupadd g0 s) g = [] ∧ getGroupMembers s g = []) := by
    unfold getGroupMembers
    rw [lookupGroup_groupadd]
    cases h : lookupGroup s g with
    | some grp => exact Or.inl rfl
    | none =>
      refine Or.inr ⟨?_, rfl⟩
      by_cases hc : g0 = g
      · rw [show ((none : Option Group).or (if g0 = g then some ⟨g0, s.nextGid, []⟩ else none)) =
          (if g0 = g then some (Group.mk g0 s.nextGid []) else none) from rfl, if_pos hc]
      · rw [show ((none : Option Group).or (if g0 = g then some ⟨g0, s.nextGid, []⟩ else none)) =
          (if g0 = g then some (Group.mk g0 s.nextGid []) else none) from rfl, if_neg hc]
  have hprim : (isPrimaryGroup (groupadd g0 s) v g).getD false =
      (isPrimaryGroup s v g).getD false := by
    unfold isPrimaryGroup
    rw [show lookupUser (groupadd g0 s) v = lookupUser s v from rfl, lookupGroup_groupadd]
    cases he : lookupUser s v with
    | none => rfl
    | some e =>
      cases hg : lookupGroup s g with
      | some grp => rfl
      | none =>
        by_cases hc : g0 = g
        · rw [show ((none : Option Group).or (if g0 = g then some ⟨g0, s.nextGid, []⟩ else none)) =
            (if g0 = g then some (Group.mk g0 s.nextGid []) else none) from rfl, if_pos hc]
          have hlt := hgids e (lookupUser_mem he)
          show (some (decide (e.gid = s.nextGid))).getD false = (none : Option Bool).getD false
          rw [show (decide (e.gid = s.nextGid)) = false from
            decide_eq_false (fun hcc => absurd (hcc ▸ hlt) (lt_irrefl _))]
          rfl
        · rw [show ((none : Option Group).or (if g0 = g then some ⟨g0, s.nextGid, []⟩ else none)) =
            (if g0 = g then some (Group.mk g0 s.nextGid []) else none) from rfl, if_neg hc]
  rw [hprim]
  rcases hsupp with hs2 | ⟨hs2, hs3⟩
  · rw [hs2]
  · rw [hs2, hs3]

theorem isInGroup_ensureGroup {s : SysState} (g0 : String)
    (hgids : ∀ e ∈ s.passwd, e.gid < s.nextGid) (v g : String) :
    isInGroup (ensureGroup g0 s) v g = isInGroup s v g := by
  unfold ensureGroup
  split
  · rfl
  · exact isInGroup_groupadd g0 hgids v g

theorem isInGroup_EnsureGroups {s : SysState} (hWF : WF s) (v g : String) :
    isInGroup (EnsureGroups s) v g = isInGroup s v g := by
  unfold EnsureGroups
  rw [isInGroup_ensureGroup GroupKeyAuth
    (WF_ensureGroup GroupPasswordAuth hWF).2.2.2.2.1 v g,
    isInGroup_ensureGroup GroupPasswordAuth hWF.2.2.2.2.1 v g]

theorem Invariant_EnsureGroups {s : SysState} (hWF : WF s) (hInv : Invariant s) :
    Invariant (EnsureGroups s) := by
  intro v hv
  rw [isInGroup_EnsureGroups hWF, isInGroup_EnsureGroups hWF] at hv
  exact hInv v hv

theorem isInGroup_SetupSSHKey_fst (u k : String) (s : SysState) (v g : String) :
    isInGroup (SetupSSHKey u k s).1 v g = isInGroup s v g := by
  unfold SetupSSHKey
  split <;> rfl

theorem isInGroup_deleteState (u v g : String) (s : SysState) :
    isInGroup (deleteState u s) v g = if v = u then false else isInGroup s v g := by
  show isInGroup (userdel u (gpasswdRemove u GroupKeyAuth
    (gpasswdRemove u GroupPasswordAuth s))) v g = _
  rw [isInGroup_userdel]
  by_cases hv : v = u
  · rw [if_pos hv, if_pos hv]
  · rw [if_neg hv, if_neg hv, isInGroup_gpasswdRemove,
      if_neg (by rintro ⟨_, h⟩; exact hv h), isInGroup_gpasswdRemove,
      if_neg (by rintro ⟨_, h⟩; exact hv h)]

/-- The gids of the two tunnel groups differ in a well-formed state. -/
theorem tunnel_gids_ne {s : SysState} (hWF : WF s) {gp gk : Group}
    (hp : lookupGroup s GroupPasswordAuth = some gp)
    (hk : lookupGroup s GroupKeyAuth = some gk) : ¬(gp.gid = gk.gid) := by
  intro hc
  have hne : gp ≠ gk := by
    intro he
    have h1 := lookupGroup_name hp
    have h2 := lookupGroup_name hk
    rw [he, h2] at h1
    exact absurd h1 (by decide)
  exact hne (List.inj_on_of_nodup_map hWF.2.1 (lookupGroup_mem hp) (lookupGroup_mem hk) hc)

theorem Invariant_Delete {s : SysState} (u : String) (hInv : Invariant s) :
    Invariant (Delete u s).1 := by
  unfold Delete
  split
  · exact hInv
  · intro v hv
    rw [show (deleteState u s, (none : Option String)).1 = deleteState u s from rfl] at hv
    rw [isInGroup_deleteState, isInGroup_deleteState] at hv
    by_cases hvu : v = u
    · rw [if_pos hvu] at hv
      cases hv.1
    · rw [if_neg hvu, if_neg hvu] at hv
      exact hInv v hv

theorem isInGroup_switchPrimaryGid_other {u : String} (tgid : Nat) (tunnelGid : Nat → Bool)
    {s : SysState} {v : String} (hvu : ¬(v = u)) (g : String) :
    isInGroup (switchPrimaryGid u tgid tunnelGid s) v g = isInGroup s v g := by
  unfold isInGroup
  have hsupp : getGroupMembers (switchPrimaryGid u tgid tunnelGid s) g =
      getGroupMembers s g := rfl
  have hprim : isPrimaryGroup (switchPrimaryGid u tgid tunnelGid s) v g =
      isPrimaryGroup s v g := by
    unfold isPrimaryGroup
    rw [show lookupUser (switchPrimaryGid u tgid tunnelGid s) v =
      ((s.passwd.map (fun e =>
        if e.name = u ∧ tunnelGid e.gid = true then { e with gid := tgid } else e)).find?
          (fun e => e.name = v)) from rfl]
    rw [find?_map_pname (by intro e; split <;> rfl)]
    rw [show lookupUser s v = s.passwd.find? (fun e => decide (e.name = v)) from rfl]
    rw [show lookupGroup (switchPrimaryGid u tgid tunnelGid s) g = lookupGroup s g from rfl]
    cases he : s.passwd.find? (fun e => decide (e.name = v)) with
    | none => rfl
    | some e =>
      have hname : e.name = v := by simpa using List.find?_some he
      rw [show ((some e).map (fun e =>
          if e.name = u ∧ tunnelGid e.gid = true then { e with gid := tgid } else e)) =
        some (if e.name = u ∧ tunnelGid e.gid = true then { e with gid := tgid } else e)
          from rfl]
      rw [if_neg (by rintro ⟨hc, _⟩; exact hvu (hname ▸ hc ▸ rfl))]
  rw [hsupp, hprim]

theorem lookupUser_switchPrimaryGid_self {u : String} (tgid : Nat) (tunnelGid : Nat → Bool)
    {s : SysState} {e : PasswdEntry} (he : lookupUser s u = some e) :
    lookupUser (switchPrimaryGid u tgid tunnelGid s) u =
      some (if tunnelGid e.gid = true then { e with gid := tgid } else e) := by
  have hname : e.name = u := lookupUser_name he
  show ((s.passwd.map (fun e =>
    if e.name = u ∧ tunnelGid e.gid = true then { e with gid := tgid } else e)).find?
      (fun e => e.name = u)) = _
  rw [find?_map_pname (by intro x; split <;> rfl)]
  rw [show s.passwd.find? (fun e => decide (e.name = u)) = some e from he]
  by_cases hc : tunnelGid e.gid = true
  · rw [if_pos hc]
    show some (if e.name = u ∧ tunnelGid e.gid = true then _ else e) = _
    rw [if_pos ⟨hname, hc⟩]
  · rw [if_neg hc]
    show some (if e.name = u ∧ tunnelGid e.gid = true then _ else e) = some e
    rw [if_neg (by rintro ⟨_, hcc⟩; exact hc hcc)]

theorem otherGroupName_ne_target (m : AuthMode) :
    ¬(otherGroupName m = targetGroupName m) := by
  cases m <;> decide

theorem otherGroupName_cases (m : AuthMode) :
    otherGroupName m = GroupPasswordAuth ∨ otherGroupName m = GroupKeyAuth := by
  cases m
  · exact Or.inr rfl
  · exact Or.inl rfl

theorem lookupUser_switchPrimaryGid_none {u : String} (tgid : Nat) (tunnelGid : Nat → Bool)
    {s : SysState} (he : lookupUser s u = none) :
    lookupUser (switchPrimaryGid u tgid tunnelGid s) u = none := by
  show ((s.passwd.map (fun e =>
    if e.name = u ∧ tunnelGid e.gid = true then { e with gid := tgid } else e)).find?
      (fun e => e.name = u)) = none
  rw [find?_map_pname (by intro x; split <;> rfl)]
  rw [show s.passwd.find? (fun e => decide (e.name = u)) = none from he]
  rfl

/-- After the two gpasswd -d calls, the user is in neither supplementary
member list. -/
theorem not_mem_gpasswd_both (u : String) (s : SysState) {g : String}
    (hg : g = GroupPasswordAuth ∨ g = GroupKeyAuth) :
    ¬(u ∈ getGroupMembers
      (gpasswdRemove u GroupKeyAuth (gpasswdRemove u GroupPasswordAuth s)) g) := by
  intro hmem
  rw [getGroupMembers_gpasswdRemove] at hmem
  rcases hg with rfl | rfl
  · rw [if_neg (by decide)] at hmem
    rw [getGroupMembers_gpasswdRemove, if_pos rfl] at hmem
    have h2 := (List.mem_filter.mp hmem).2
    simp at h2
  · rw [if_pos rfl] at hmem
    have h2 := (List.mem_filter.mp hmem).2
    simp at h2

/-- A gid that is not a tunnel gid differs from the gid of any tunnel group
present in the database. -/
theorem gid_ne_of_not_tunnelGid {s : SysState} {gid : Nat}
    (h : isTunnelGidIn s gid = false) {g : String}
    (hg : g = GroupPasswordAuth ∨ g = GroupKeyAuth) {go : Group}
    (hog : lookupGroup s g = some go) : ¬(go.gid = gid) := by
  intro hc
  rcases hg with rfl | rfl
  · simp [isTunnelGidIn, hog, hc] at h
  · simp [isTunnelGidIn, hog, hc] at h

/-- The two supplementary removals keep every group's name and gid. -/
theorem lookupGroup_gpasswd2_gid {u g : String} {s : SysState} {grp2 : Group}
    (h : lookupGroup (gpasswdRemove u GroupKeyAuth (gpasswdRemove u GroupPasswordAuth s)) g
      = some grp2) :
    ∃ go, lookupGroup s g = some go ∧ grp2.gid = go.gid := by
  rw [lookupGroup_gpasswdRemove, lookupGroup_gpasswdRemove] at h
  cases hog : lookupGroup s g with
  | none =>
    rw [hog] at h
    simp at h
  | some go =>
    rw [hog] at h
    refine ⟨go, rfl, ?_⟩
    simp only [Option.map_some'] at h
    have h2 := Option.some.inj h
    rw [← h2, gpasswdRemove_gid, gpasswdRemove_gid]

/-- After the spec-modelled SwitchAuthMode mutation, the user is not a member
of the non-target tunnel group. -/
theorem switch_not_in_other {s : SysState} (hWF : WF s) (u : String) (m : AuthMode)
    {tg : Group} (htg : lookupGroup s (targetGroupName m) = some tg) :
    isInGroup (usermodAddGroup u (targetGroupName m)
      (switchPrimaryGid u tg.gid (isTunnelGidIn s)
        (gpasswdRemove u GroupKeyAuth (gpasswdRemove u GroupPasswordAuth s))))
      u (otherGroupName m) = false := by
  rw [isInGroup_usermodAddGroup,
    if_neg (by rintro ⟨hc, _⟩; exact otherGroupName_ne_target m hc)]
  cases hb : isInGroup (switchPrimaryGid u tg.gid (isTunnelGidIn s)
      (gpasswdRemove u GroupKeyAuth (gpasswdRemove u GroupPasswordAuth s)))
      u (otherGroupName m) with
  | false => rfl
  | true =>
    exfalso
    rcases (isInGroup_eq_true_iff _ u (otherGroupName m)).mp hb with hmem | hprim
    · have hmem' : u ∈ getGroupMembers
          (gpasswdRemove u GroupKeyAuth (gpasswdRemove u GroupPasswordAuth s))
          (otherGroupName m) := hmem
      exact not_mem_gpasswd_both u s (otherGroupName_cases m) hmem'
    · rcases (primaryInGroup_iff _ u (otherGroupName m)).mp hprim with
        ⟨e', grp2, hlu', hg2, hgid⟩
      have hg2' : lookupGroup
          (gpasswdRemove u GroupKeyAuth (gpasswdRemove u GroupPasswordAuth s))
          (otherGroupName m) = some grp2 := hg2
      rcases lookupGroup_gpasswd2_gid hg2' with ⟨go, hog, hgideq⟩
      cases he : lookupUser s u with
      | none =>
        have h0 : lookupUser (switchPrimaryGid u tg.gid (isTunnelGidIn s)
            (gpasswdRemove u GroupKeyAuth (gpasswdRemove u GroupPasswordAuth s))) u = none :=
          lookupUser_switchPrimaryGid_none tg.gid (isTunnelGidIn s) he
        rw [h0] at hlu'
        cases hlu'
      | some e =>
        have h1 : lookupUser (switchPrimaryGid u tg.gid (isTunnelGidIn s)
            (gpasswdRemove u GroupKeyAuth (gpasswdRemove u GroupPasswordAuth s))) u =
            some (if isTunnelGidIn s e.gid = true then { e with gid := tg.gid } else e) :=
          lookupUser_switchPrimaryGid_self tg.gid (isTunnelGidIn s) he
        rw [h1] at hlu'
        have he' := Option.some.inj hlu'
        cases hc : isTunnelGidIn s e.gid with
        | true =>
          rw [if_pos hc] at he'
          rw [← he'] at hgid
          have hEq : tg.gid = go.gid :=
            (show tg.gid = grp2.gid from hgid).trans hgideq
          cases m with
          | password => exact tunnel_gids_ne hWF htg hog hEq
          | key => exact tunnel_gids_ne hWF hog htg hEq.symm
        | false =>
          rw [if_neg (by simp [hc])] at he'
          rw [← he'] at hgid
          have hEq : go.gid = e.gid := hgideq.symm.trans hgid.symm
          exact gid_ne_of_not_tunnelGid hc (otherGroupName_cases m) hog hEq

theorem Invariant_congr {s t : SysState} (hp : t.passwd = s.passwd)
    (hg : t.groups = s.groups) (h : Invariant s) : Invariant t := by
  intro v hv
  rw [isInGroup_congr hp hg, isInGroup_congr hp hg] at hv
  exact h v hv

theorem Invariant_SetupSSHKey_fst (u k : String) {s : SysState} (h : Invariant s) :
    Invariant (SetupSSHKey u k s).1 := by
  intro v hv
  rw [isInGroup_SetupSSHKey_fst, isInGroup_SetupSSHKey_fst] at hv
  exact h v hv

/-- The spec-modelled SwitchAuthMode always preserves the exclusivity
invariant: the re-pointing of a tunnel primary group is what the
supplementary-only removal of Create lacks. -/
theorem Invariant_SwitchAuthMode {s : SysState} (hWF : WF s) (u : String) (m : AuthMode)
    (hInv : Invariant s) : Invariant (SwitchAuthMode u m s).1 := by
  unfold SwitchAuthMode
  split
  · exact hInv
  · cases htg : lookupGroup s (targetGroupName m) with
    | none => exact hInv
    | some tg =>
      show Invariant (usermodAddGroup u (targetGroupName m)
        (switchPrimaryGid u tg.gid (isTunnelGidIn s)
          (gpasswdRemove u GroupKeyAuth (gpasswdRemove u GroupPasswordAuth s))))
      intro v hv
      by_cases hvu : v = u
      · rw [hvu] at hv
        have hother := switch_not_in_other hWF u m htg
        have h2 : isInGroup (usermodAddGroup u (targetGroupName m)
            (switchPrimaryGid u tg.gid (isTunnelGidIn s)
              (gpasswdRemove u GroupKeyAuth (gpasswdRemove u GroupPasswordAuth s))))
            u (otherGroupName m) = true := by
          rcases otherGroupName_cases m with hcase | hcase
          · rw [hcase]; exact hv.1
          · rw [hcase]; exact hv.2
        rw [hother] at h2
        cases h2
      · have hv1 := hv.1
        have hv2 := hv.2
        rw [isInGroup_usermodAddGroup, if_neg (by rintro ⟨_, hc, _⟩; exact hvu hc),
          isInGroup_switchPrimaryGid_other tg.gid (isTunnelGidIn s) hvu,
          isInGroup_gpasswdRemove, if_neg (by rintro ⟨_, hc⟩; exact hvu hc),
          isInGroup_gpasswdRemove, if_neg (by rintro ⟨_, hc⟩; exact hvu hc)] at hv1
        rw [isInGroup_usermodAddGroup, if_neg (by rintro ⟨_, hc, _⟩; exact hvu hc),
          isInGroup_switchPrimaryGid_other tg.gid (isTunnelGidIn s) hvu,
          isInGroup_gpasswdRemove, if_neg (by rintro ⟨_, hc⟩; exact hvu hc),
          isInGroup_gpasswdRemove, if_neg (by rintro ⟨_, hc⟩; exact hvu hc)] at hv2
        exact hInv v ⟨hv1, hv2⟩

/-- The Create-as-update mutation preserves the invariant exactly when the
updated user's primary group is not the non-target tunnel group. -/
theorem Invariant_createUpdate {s1 : SysState} (hInv1 : Invariant s1)
    (u : String) (m : AuthMode)
    (hprim : primaryInGroup s1 u (otherGroupName m) = false) :
    Invariant (usermodAddGroup u (targetGroupName m)
      (gpasswdRemove u GroupKeyAuth (gpasswdRemove u GroupPasswordAuth s1))) := by
  intro v hv
  by_cases hvu : v = u
  · rw [hvu] at hv
    have hother : isInGroup (usermodAddGroup u (targetGroupName m)
        (gpasswdRemove u GroupKeyAuth (gpasswdRemove u GroupPasswordAuth s1)))
        u (otherGroupName m) = false := by
      rw [isInGroup_usermodAddGroup,
        if_neg (by rintro ⟨hc, _⟩; exact otherGroupName_ne_target m hc)]
      rcases otherGroupName_cases m with hcase | hcase
      · rw [isInGroup_gpasswdRemove, if_neg (by
            rintro ⟨hc, _⟩
            rw [hcase] at hc
            exact (by decide : ¬(GroupPasswordAuth = GroupKeyAuth)) hc),
          isInGroup_gpasswdRemove, if_pos ⟨hcase, rfl⟩]
        exact hprim
      · rw [isInGroup_gpasswdRemove, if_pos ⟨hcase, rfl⟩]
        show (isPrimaryGroup (gpasswdRemove u GroupPasswordAuth s1) u
          (otherGroupName m)).getD false = false
        rw [isPrimaryGroup_gpasswdRemove]
        exact hprim
    have h2 : isInGroup (usermodAddGroup u (targetGroupName m)
        (gpasswdRemove u GroupKeyAuth (gpasswdRemove u GroupPasswordAuth s1)))
        u (otherGroupName m) = true := by
      rcases otherGroupName_cases m with hcase | hcase
      · rw [hcase]; exact hv.1
      · rw [hcase]; exact hv.2
    rw [hother] at h2
    cases h2
  · have hv1 := hv.1
    have hv2 := hv.2
    rw [isInGroup_usermodAddGroup, if_neg (by rintro ⟨_, hc, _⟩; exact hvu hc),
      isInGroup_gpasswdRemove, if_neg (by rintro ⟨_, hc⟩; exact hvu hc),
      isInGroup_gpasswdRemove, if_neg (by rintro ⟨_, hc⟩; exact hvu hc)] at hv1
    rw [isInGroup_usermodAddGroup, if_neg (by rintro ⟨_, hc, _⟩; exact hvu hc),
      isInGroup_gpasswdRemove, if_neg (by rintro ⟨_, hc⟩; exact hvu hc),
      isInGroup_gpasswdRemove, if_neg (by rintro ⟨_, hc⟩; exact hvu hc)] at hv2
    exact hInv1 v ⟨hv1, hv2⟩

/-- Creating a fresh account whose primary group is the target tunnel group
preserves the invariant. -/
theorem Invariant_createFresh {s1 : SysState} (hWF1 : WF s1) (hInv1 : Invariant s1)
    (u : String) (m : AuthMode) {grp : Group}
    (hex : userExists s1 u = false)
    (hgrp : lookupGroup s1 (targetGroupName m) = some grp) :
    Invariant (useradd u grp.gid s1) := by
  intro v hv
  by_cases hvu : v = u
  · rw [hvu] at hv
    have hother : isInGroup (useradd u grp.gid s1) u (otherGroupName m) = false := by
      cases hb : isInGroup (useradd u grp.gid s1) u (otherGroupName m) with
      | false => rfl
      | true =>
        exfalso
        rcases (isInGroup_eq_true_iff _ u (otherGroupName m)).mp hb with hmem | hprim
        · have hmem' : u ∈ getGroupMembers s1 (otherGroupName m) := hmem
          cases hog : lookupGroup s1 (otherGroupName m) with
          | none =>
            rw [getGroupMembers_eq_nil hog] at hmem'
            cases hmem'
          | some go =>
            rw [getGroupMembers_eq_members hog] at hmem'
            have hU := hWF1.2.2.2.2.2 go (lookupGroup_mem hog) u hmem'
            rw [hex] at hU
            cases hU
        · rcases (primaryInGroup_iff _ u (otherGroupName m)).mp hprim with
            ⟨e, go, hlu, hlg, hgid⟩
          rw [lookupUser_useradd] at hlu
          have hnone : lookupUser s1 u = none := by
            unfold userExists at hex
            exact Option.not_isSome_iff_eq_none.mp (by rw [hex]; intro hc; cases hc)
          rw [hnone, if_pos rfl] at hlu
          have he := Option.some.inj hlu
          have hlg' : lookupGroup s1 (otherGroupName m) = some go := hlg
          rw [← he] at hgid
          have hEq : grp.gid = go.gid := hgid
          cases m with
          | password => exact tunnel_gids_ne hWF1 hgrp hlg' hEq
          | key => exact tunnel_gids_ne hWF1 hlg' hgrp hEq.symm
    have h2 : isInGroup (useradd u grp.gid s1) u (otherGroupName m) = true := by
      rcases otherGroupName_cases m with hcase | hcase
      · rw [hcase]; exact hv.1
      · rw [hcase]; exact hv.2
    rw [hother] at h2
    cases h2
  · rw [isInGroup_useradd_other GroupPasswordAuth hvu,
      isInGroup_useradd_other GroupKeyAuth hvu] at hv
    exact hInv1 v hv

/-- Create preserves the invariant whenever its step is safe: the empty-name
rejection and the fresh-account path always do, and the update path does
under the safety condition on the existing primary group. -/
theorem Invariant_Create (cfg : Config) {s : SysState} (hWF : WF s) (hInv : Invariant s)
    (hsafe : cfg.username = "" ∨ userExists s cfg.username = false ∨
      primaryInGroup (EnsureGroups s) cfg.username (otherGroupName cfg.authMode) = false) :
    Invariant (Create cfg s).1 := by
  have hWF1 : WF (EnsureGroups s) := WF_EnsureGroups hWF
  have hInv1 : Invariant (EnsureGroups s) := Invariant_EnsureGroups hWF hInv
  unfold Create
  by_cases h0 : cfg.username = ""
  · rw [if_pos h0]
    exact hInv
  · rw [if_neg h0]
    simp only []
    have hs2e : Invariant (if userExists (EnsureGroups s) cfg.username then
        (usermodAddGroup cfg.username (targetGroupName cfg.authMode)
          (gpasswdRemove cfg.username GroupKeyAuth
            (gpasswdRemove cfg.username GroupPasswordAuth (EnsureGroups s))), none)
      else
        match lookupGroup (EnsureGroups s) (targetGroupName cfg.authMode) with
        | some grp => (useradd cfg.username grp.gid (EnsureGroups s), none)
        | none => (EnsureGroups s, some "failed to create user")).1 := by
      split
      · rename_i hex
        have hprim : primaryInGroup (EnsureGroups s) cfg.username
            (otherGroupName cfg.authMode) = false := by
          rcases hsafe with hc | hc | hc
          · exact absurd hc h0
          · rw [userExists_congr (EnsureGroups_passwd s)] at hex
            rw [hex] at hc
            cases hc
          · exact hc
        exact Invariant_createUpdate hInv1 cfg.username cfg.authMode hprim
      · rename_i hnex
        cases hgrp : lookupGroup (EnsureGroups s) (targetGroupName cfg.authMode) with
        | none => exact hInv1
        | some grp =>
          have hex0 : userExists (EnsureGroups s) cfg.username = false := by
            cases hval : userExists (EnsureGroups s) cfg.username
            · rfl
            · exact absurd hval hnex
          exact Invariant_createFresh hWF1 hInv1 cfg.username cfg.authMode hex0 hgrp
    split
    · exact hs2e
    · split
      · split
        · exact Invariant_SetupSSHKey_fst _ _ hs2e
        · exact Invariant_congr rfl rfl hs2e
      · split
        · exact Invariant_congr rfl rfl (Invariant_SetupSSHKey_fst _ _ hs2e)
        · exact Invariant_congr rfl rfl (Invariant_congr rfl rfl hs2e)

theorem WF_applyOp (op : Op) {s : SysState} (h : WF s) : WF (applyOp op s).1 := by
  cases op with
  | create cfg => exact WF_Create cfg h
  | switchMode u m => exact WF_SwitchAuthMode u m h
  | delete u => exact WF_Delete u h

theorem Invariant_applyOp {s : SysState} (op : Op) (hWF : WF s) (hInv : Invariant s)
    (hsafe : SafeStep s op) : Invariant (applyOp op s).1 := by
  cases op with
  | create cfg => exact Invariant_Create cfg hWF hInv hsafe
  | switchMode u m => exact Invariant_SwitchAuthMode hWF u m hInv
  | delete u => exact Invariant_Delete u hInv

/-- C1 (amended): from any well-formed state satisfying the exclusivity
invariant (no user in both tunnel groups at once, counting supplementary and
primary membership), any sequence of lifecycle operations whose Create steps
are all safe — each rejects an empty username, creates a fresh account, or
updates a user whose primary group is not the non-target tunnel group —
leaves the invariant intact; SwitchAuthMode and Delete steps are always
safe.  The unrestricted original claim fails at the excluded Create-as-update
steps (see the counterexample): gpasswd -d strips only supplementary
memberships, so a tunnel primary group survives the update. -/
theorem c1_invariant_safe_runs (ops : List Op) : ∀ s : SysState,
    WF s → Invariant s → SafeRun s ops → Invariant (runOps ops s) := by
  induction ops with
  | nil =>
    intro s _ hInv _
    exact hInv
  | cons op rest ih =>
    intro s hWF hInv hsafe
    exact ih (applyOp op s).1 (WF_applyOp op hWF)
      (Invariant_applyOp op hWF hInv hsafe.1) hsafe.2

/-- C1 counterexample: the lifecycle sequence Create("alice", key) then
Create("alice", password) — the second being a Create-as-update — ends with
alice a member of BOTH tunnel groups: the update strips only supplementary
memberships, so her key-group primary membership (set by useradd --gid)
survives while the password group is added, refuting "membership in both
groups is never produced". -/
theorem c1_counterexample :
    isInGroup (runOps [Op.create ⟨"alice", AuthMode.key, "", "ssh-ed25519 AAAA"⟩,
        Op.create ⟨"alice", AuthMode.password, "pw", ""⟩] initState)
      "alice" GroupPasswordAuth = true ∧
    isInGroup (runOps [Op.create ⟨"alice", AuthMode.key, "", "ssh-ed25519 AAAA"⟩,
        Op.create ⟨"alice", AuthMode.password, "pw", ""⟩] initState)
      "alice" GroupKeyAuth = true := by
  refine ⟨by decide, by decide⟩

/-- C1 witness: the amended theorem applied to the empty initial state and
the safe sequence Create("carol", key), SwitchAuthMode("carol", password),
Delete("carol"). -/
theorem c1_witness :
    (WF initState ∧ Invariant initState ∧
      SafeRun initState [Op.create ⟨"carol", AuthMode.key, "", "ssh-ed25519 AAAA"⟩,
        Op.switchMode "carol" AuthMode.password, Op.delete "carol"]) ∧
    Invariant (runOps [Op.create ⟨"carol", AuthMode.key, "", "ssh-ed25519 AAAA"⟩,
      Op.switchMode "carol" AuthMode.password, Op.delete "carol"] initState) := by
  have hWF : WF initState :=
    ⟨by decide, by decide, by decide, by decide, by decide, by decide⟩
  have hInv : Invariant initState := by
    intro v hv
    cases hv.1
  have hsafe : SafeRun initState
      [Op.create ⟨"carol", AuthMode.key, "", "ssh-ed25519 AAAA"⟩,
        Op.switchMode "carol" AuthMode.password, Op.delete "carol"] :=
    ⟨Or.inr (Or.inl (by decide)), trivial, trivial, trivial⟩
  exact ⟨⟨hWF, hInv, hsafe⟩,
    c1_invariant_safe_runs [Op.create ⟨"carol", AuthMode.key, "", "ssh-ed25519 AAAA"⟩,
      Op.switchMode "carol" AuthMode.password, Op.delete "carol"] initState hWF hInv hsafe⟩

end SshtunUser
